import Mathlib

/-!
# connectRN-assessment: the `/json` and `/jpeg-to-png` handlers

A shallow embedding of `src/main.go` and of the handler `postJpegToPng` of
`src/httpserver/main.go`.  The handlers are state-passing functions on a
response recorder; a call of the handler of `src/httpserver/main.go` ends in
an `Outcome`, a return or an exit of the process.  The collaborators the handlers call but do
not implement (the JSON decoder, the JPEG decoder, the resize filter, the PNG
encoder and the time-zone database) are the fields of `Env`.  The parts of the
Go standard library whose behaviour decides what the handlers answer
(`time.Unix`, `time.Parse`, `Time.Day`, `Time.Format`, `json.Marshal`, the
float64 division) are written out, as they behave in Go 1.22 and later.  Logging to
standard output is not modelled.

A Go `string` that comes out of the JSON decoder is valid UTF-8; it is modelled
by a Lean `String`, one `Char` per code point.
-/

namespace ConnectRN

set_option maxRecDepth 100000

/-! ## Data model (`src/main.go`, lines 19-35) -/

/-- Data that is expected to be unmarshalled from the JSON input. `User_Id` is a
Go `int`, `Created_On` an `int64`. -/
structure User where
  User_Id : Int
  Name : String
  Date_Of_Birth : String
  Created_On : Int
  deriving DecidableEq, Repr

/-- Data that is marshalled for the JSON output. -/
structure UserInfo where
  User_Id : Int
  Name : String
  Birth_Day_Of_Week : Int
  Rfc_Created_On : String
  deriving DecidableEq, Repr

/-- The reason phrases of `http.StatusText` that the handlers can ask for. -/
def StatusText (code : Nat) : String :=
  if code = 400 then "Bad Request" else if code = 200 then "OK" else ""

/-- Decimal digits of a natural number, most significant first. -/
def decimalCore : Nat → Nat → List Char → List Char
  | 0, _, acc => acc
  | fuel + 1, n, acc =>
    if n / 10 = 0 then Char.ofNat (48 + n % 10) :: acc
    else decimalCore fuel (n / 10) (Char.ofNat (48 + n % 10) :: acc)

/-- Decimal rendering of a natural number (`fmt.Sprint`, `strconv.Itoa`). -/
def decimal (n : Nat) : String := String.mk (decimalCore (n + 1) n [])

/-- Decimal rendering of an integer, with a leading minus sign when negative. -/
def decimalInt (x : Int) : String :=
  if x < 0 then "-" ++ decimal x.natAbs else decimal x.natAbs

/-- The value of `badRequestString` (line 35): `"400 Bad Request\n"`. -/
def badRequestString : String := decimal 400 ++ " " ++ StatusText 400 ++ "\n"

/-! ## The response writer (`net/http`, as recorded by `httptest.ResponseRecorder`) -/

/-- State of a response writer: the status code (200 until a header is written),
the live header map, the header map as it was sent, and the body written so far. -/
structure ResponseWriter where
  Code : Nat
  wroteHeader : Bool
  HeaderMap : List (String × String)
  sentHeader : List (String × String)
  Body : String
  deriving DecidableEq, Repr

/-- A fresh recorder (`httptest.NewRecorder`). -/
def NewRecorder : ResponseWriter :=
  { Code := 200, wroteHeader := false, HeaderMap := [], sentHeader := [], Body := "" }

/-- Go `WriteHeader`: the first call fixes the status code and snapshots the header map. -/
def ResponseWriter.WriteHeader (w : ResponseWriter) (code : Nat) : ResponseWriter :=
  if w.wroteHeader then w
  else { w with Code := code, wroteHeader := true, sentHeader := w.HeaderMap }

/-- Go `Header().Set(key, value)`: replaces the entry of the live header map. -/
def ResponseWriter.HeaderSet (w : ResponseWriter) (key value : String) : ResponseWriter :=
  { w with HeaderMap := (key, value) :: w.HeaderMap.filter (fun kv => kv.1 ≠ key) }

/-- Go `Write`: sends the header with status 200 if none was written, then appends to the
body. (The handlers set the content type before every such write, so the sniffing of a
missing content type never applies.) -/
def ResponseWriter.Write (w : ResponseWriter) (b : String) : ResponseWriter :=
  let w1 := w.WriteHeader 200
  { w1 with Body := w1.Body ++ b }

/-- An incoming request: its method, and what `io.ReadAll(request.Body)` yields when it is
called (the bytes, or the read error). -/
structure Request where
  Method : String
  Body : Except String String

/-! ## Package `time` -/

/-- Seconds from 0001-01-01T00:00:00Z to the Unix epoch (`unixToInternal`). -/
def unixToInternal : Int := (1969 * 365 + 1969 / 4 - 1969 / 100 + 1969 / 400) * 86400

/-- Two's-complement wrap of an integer into the `int64` range. -/
def wrapInt64 (x : Int) : Int := (x + 2 ^ 63) % 2 ^ 64 - 2 ^ 63

/-- A time zone: its name and the offset (seconds east of UTC) in force at a Unix time. -/
structure Location where
  name : String
  offsetAt : Int → Int

/-- The UTC location. -/
def UTC : Location := { name := "UTC", offsetAt := fun _ => 0 }

/-- A `time.Time` without monotonic reading and with zero nanoseconds: `ext` is the
number of seconds since 0001-01-01T00:00:00Z as an `int64`. -/
structure Time where
  ext : Int
  loc : Location

/-- Go `time.Unix(sec, 0)`: `ext = sec + unixToInternal` in `int64` arithmetic. -/
def time_Unix (localLoc : Location) (sec : Int) : Time :=
  { ext := wrapInt64 (sec + unixToInternal), loc := localLoc }

/-- Go `t.Before(u)` (nanoseconds are zero on both sides). -/
def Time.Before (t u : Time) : Bool := decide (t.ext < u.ext)

/-- Go `t.Equal(u)` (nanoseconds are zero on both sides). -/
def Time.Equal (t u : Time) : Bool := decide (t.ext = u.ext)

/-- Go `t.In(loc)`. -/
def Time.In (t : Time) (loc : Location) : Time := { t with loc := loc }

/-- Go `isLeap`. -/
def isLeap (year : Int) : Bool :=
  year % 4 = 0 && (year % 100 != 0 || year % 400 = 0)

/-- Go `daysBefore[m]`: days in a non-leap year before month `m + 1`. -/
def daysBefore (m : Nat) : Int :=
  [0, 31, 59, 90, 120, 151, 181, 212, 243, 273, 304, 334, 365].getD m 365

/-- Go `daysIn(month, year)`. -/
def daysIn (month : Nat) (year : Int) : Int :=
  if month = 2 && isLeap year then 29 else daysBefore month - daysBefore (month - 1)

/-- Go `daysSinceEpoch`, counted from 0001-01-01 (the Go epoch differs from year 1 by a
whole number of 400-year cycles). -/
def daysSinceEpoch (year : Int) : Int :=
  let y := year - 1
  let n400 := y / 400
  let y := y - 400 * n400
  let n100 := y / 100
  let y := y - 100 * n100
  let n4 := y / 4
  let y := y - 4 * n4
  146097 * n400 + 36524 * n100 + 1461 * n4 + 365 * y

/-- Go `time.Date(year, month, day, 0, 0, 0, 0, loc)` for a month in `1..12` and a
location at offset zero. -/
def time_Date (year : Int) (month : Nat) (day : Int) (loc : Location) : Time :=
  let d := daysSinceEpoch year + daysBefore (month - 1)
  let d := if isLeap year && decide (3 ≤ month) then d + 1 else d
  let d := d + (day - 1)
  { ext := d * 86400, loc := loc }

/-- Seconds since 0001-01-01T00:00:00 on the wall clock of the time's location (Go `t.abs`,
shifted by a whole number of 400-year cycles). -/
def Time.abs (t : Time) : Int :=
  let unixSec := wrapInt64 (t.ext - unixToInternal)
  t.ext + t.loc.offsetAt unixSec

/-- Go `absDate`: year and zero-based day of the year of a day count. -/
def absDate (days : Int) : Int × Int :=
  let n := days / 146097
  let y := 400 * n
  let d := days - 146097 * n
  let n := d / 36524
  let n := n - n / 4
  let y := y + 100 * n
  let d := d - 36524 * n
  let n := d / 1461
  let y := y + 4 * n
  let d := d - 1461 * n
  let n := d / 365
  let n := n - n / 4
  let y := y + n
  let d := d - 365 * n
  (y + 1, d)

/-- The second half of Go `absDate`: month (1..12) and day of the month of a zero-based
day of the year; `leap` is `isLeap(year)`. -/
def monthDay (leap : Bool) (yday : Int) : Nat × Int :=
  if leap && decide (yday = 31 + 29 - 1) then (2, 29)
  else
    let day := if leap && decide (yday > 31 + 29 - 1) then yday - 1 else yday
    let month := (day / 31).toNat
    let end_ := daysBefore (month + 1)
    if day ≥ end_ then (month + 2, day - end_ + 1)
    else (month + 1, day - daysBefore month + 1)

/-- Go `t.Date()`: year, month and day of the month. -/
def Time.Date (t : Time) : Int × Nat × Int :=
  let yd := absDate (t.abs / 86400)
  let md := monthDay (isLeap yd.1) yd.2
  (yd.1, md.1, md.2)

/-- Go `t.Day()`: the day of the month. -/
def Time.Day (t : Time) : Int := t.Date.2.2

/-- Go `appendInt(b, x, width)`: decimal, zero-padded to `width` digits, minus sign first. -/
def appendInt (x : Int) (width : Nat) : String :=
  let ds := decimalCore (x.natAbs + 1) x.natAbs []
  let padded := String.mk (List.replicate (width - ds.length) (Char.ofNat 48) ++ ds)
  if x < 0 then "-" ++ padded else padded

/-- The `Z07:00` element of a layout: `Z` at offset zero, else sign, hours, colon, minutes. -/
def formatZone (offset : Int) : String :=
  if offset = 0 then "Z"
  else
    let zone := Int.tdiv offset 60
    let sign := if zone < 0 then "-" else "+"
    let z := zone.natAbs
    sign ++ appendInt (z / 60) 2 ++ ":" ++ appendInt (z % 60) 2

/-- Go `t.Format("2006-01-02T15:04:05Z07:00")`. -/
def Time.Format (t : Time) : String :=
  let unixSec := wrapInt64 (t.ext - unixToInternal)
  let offset := t.loc.offsetAt unixSec
  let abs := t.abs
  let ymd := t.Date
  let secs := abs % 86400
  appendInt ymd.1 4 ++ "-" ++ appendInt ymd.2.1 2 ++ "-" ++ appendInt ymd.2.2 2 ++ "T"
    ++ appendInt (secs / 3600) 2 ++ ":" ++ appendInt (secs % 3600 / 60) 2 ++ ":"
    ++ appendInt (secs % 60) 2 ++ formatZone offset

/-- The test `'0' <= c && c <= '9'`. -/
def isDigitChar (c : Char) : Bool := decide (48 ≤ c.toNat) && decide (c.toNat ≤ 57)

/-- Go `isDigit(s, i)`: is there a decimal digit at index `i`. -/
def isDigit (s : List Char) (i : Nat) : Bool :=
  match s.get? i with
  | none => false
  | some c => isDigitChar c

/-- Value of a decimal digit character. -/
def digitVal (c : Char) : Nat := c.toNat - 48

/-- Go `leadingInt`: consumes the leading digits; `none` when the number exceeds `1 <<< 63`. -/
def leadingInt : List Char → Nat → Option (Nat × List Char)
  | [], x => some (x, [])
  | c :: rest, x =>
    if isDigitChar c then
      if x > 2 ^ 63 / 10 then none
      else
        let x1 := x * 10 + digitVal c
        if x1 > 2 ^ 63 then none else leadingInt rest x1
    else some (x, c :: rest)

/-- Go `atoi` of package `time`: optional sign, then digits up to the end of the text. -/
def atoi (s : List Char) : Option Int :=
  let neg := match s with
    | c :: _ => decide (c = Char.ofNat 45)
    | [] => false
  let body := match s with
    | c :: rest => if c = Char.ofNat 45 ∨ c = Char.ofNat 43 then rest else s
    | [] => s
  match leadingInt body 0 with
  | none => none
  | some (q, rem) =>
    if rem.length > 0 then none
    else if neg then some (-(q : Int)) else some (q : Int)

/-- Go `getnum(s, true)`: exactly two digits, and the rest of the text. -/
def getnum (s : List Char) : Option (Nat × List Char) :=
  if !isDigit s 0 then none
  else if !isDigit s 1 then none
  else
    match s with
    | a :: b :: rest => some (digitVal a * 10 + digitVal b, rest)
    | _ => none

/-- Go `skip(value, "-")`: the text after a leading hyphen. -/
def skipHyphen (value : List Char) : Option (List Char) :=
  match value with
  | c :: rest => if c = Char.ofNat 45 then some rest else none
  | [] => none

/-- Lower-case hexadecimal digit. -/
def lowerhex (n : Nat) : Char := if n < 10 then Char.ofNat (48 + n) else Char.ofNat (87 + n)

/-- UTF-8 encoding of a code point, as a list of byte values. -/
def utf8Bytes (c : Char) : List Nat :=
  let n := c.toNat
  if n < 128 then [n]
  else if n < 2048 then [192 + n / 64, 128 + n % 64]
  else if n < 65536 then [224 + n / 4096, 128 + n / 64 % 64, 128 + n % 64]
  else [240 + n / 262144, 128 + n / 4096 % 64, 128 + n / 64 % 64, 128 + n % 64]

/-- Go `quote` of package `time`: the text between double quotes; a quote or backslash is
escaped with a backslash, a control or non-ASCII character is written byte by byte as `\xHH`. -/
def quoteChars : List Char → List Char
  | [] => []
  | c :: rest =>
    (if c.toNat ≥ 128 ∨ c.toNat < 32 then
      (utf8Bytes c).flatMap (fun b => [Char.ofNat 92, Char.ofNat 120, lowerhex (b / 16), lowerhex (b % 16)])
    else if c = Char.ofNat 34 ∨ c = Char.ofNat 92 then [Char.ofNat 92, c]
    else [c]) ++ quoteChars rest

/-- Go `quote` of package `time`. -/
def quote (s : String) : String :=
  String.mk (Char.ofNat 34 :: (quoteChars s.data ++ [Char.ofNat 34]))

/-- Go `time.ParseError`. -/
structure ParseError where
  Layout : String
  Value : String
  LayoutElem : String
  ValueElem : String
  Message : String
  deriving DecidableEq, Repr

/-- Go `(*ParseError).Error`. -/
def ParseError.Error (e : ParseError) : String :=
  if e.Message = "" then
    "parsing time " ++ quote e.Value ++ " as " ++ quote e.Layout ++ ": cannot parse "
      ++ quote e.ValueElem ++ " as " ++ quote e.LayoutElem
  else "parsing time " ++ quote e.Value ++ e.Message

/-- Go `time.Parse("2006-01-02", avalue)`: the chunks of the layout are the four-digit year,
a hyphen, the two-digit month, a hyphen and the two-digit day; nothing may follow, and the
day is validated against the month and year at the end. -/
def time_Parse (avalue : String) : Except ParseError Time :=
  let alayout := "2006-01-02"
  let value := avalue.data
  if value.length < 4 || !isDigit value 0 then
    .error (ParseError.mk alayout avalue "2006" (String.mk value) "")
  else
    match atoi (value.take 4) with
    | none => .error (ParseError.mk alayout avalue "2006" (String.mk value) "")
    | some year =>
    let value := value.drop 4
    match skipHyphen value with
    | none => .error (ParseError.mk alayout avalue "-" (String.mk value) "")
    | some value =>
    match getnum value with
    | none => .error (ParseError.mk alayout avalue "01" (String.mk value) "")
    | some (month, value) =>
    if month ≤ 0 ∨ 12 < month then
      .error (ParseError.mk alayout avalue "01" (String.mk value) ": month out of range")
    else
    match skipHyphen value with
    | none => .error (ParseError.mk alayout avalue "-" (String.mk value) "")
    | some value =>
    match getnum value with
    | none => .error (ParseError.mk alayout avalue "02" (String.mk value) "")
    | some (day, value) =>
    if value.length ≠ 0 then
      .error (ParseError.mk alayout avalue "" (String.mk value)
        (": extra text: " ++ quote (String.mk value)))
    else if (day : Int) < 1 ∨ (day : Int) > daysIn month year then
      .error (ParseError.mk alayout avalue "" (String.mk value) ": day out of range")
    else .ok (time_Date year month day UTC)

/-! ## Package `encoding/json`: marshalling the output -/

/-- The JSON encoding of one character of a string (HTML escaping on, as `json.Marshal`
does): quote and backslash get a backslash, backspace, form feed, newline, carriage return
and tab their short escapes, other control characters and `<`, `>`, `&`, U+2028, U+2029 a
`\u` escape. (The short escapes of backspace and form feed are those of Go 1.22 and later;
earlier versions wrote `\u0008` and `\u000c`.) -/
def jsonChar (c : Char) : List Char :=
  let n := c.toNat
  if n = 34 ∨ n = 92 then [Char.ofNat 92, c]
  else if n = 8 then [Char.ofNat 92, Char.ofNat 98]
  else if n = 12 then [Char.ofNat 92, Char.ofNat 102]
  else if n = 10 then [Char.ofNat 92, Char.ofNat 110]
  else if n = 13 then [Char.ofNat 92, Char.ofNat 114]
  else if n = 9 then [Char.ofNat 92, Char.ofNat 116]
  else if n < 32 ∨ n = 60 ∨ n = 62 ∨ n = 38 then
    [Char.ofNat 92, Char.ofNat 117, Char.ofNat 48, Char.ofNat 48, lowerhex (n / 16), lowerhex (n % 16)]
  else if n = 8232 ∨ n = 8233 then
    [Char.ofNat 92, Char.ofNat 117, Char.ofNat 50, Char.ofNat 48, Char.ofNat 50, lowerhex (n % 16)]
  else [c]

/-- The JSON encoding of a string value. -/
def jsonString (s : String) : String :=
  String.mk (Char.ofNat 34 :: (s.data.flatMap jsonChar ++ [Char.ofNat 34]))

/-- The JSON encoding of a `UserInfo` struct: an object with the fields in declaration order. -/
def marshalUserInfo (u : UserInfo) : String :=
  "\x7b\"User_Id\":" ++ decimalInt u.User_Id ++ ",\"Name\":" ++ jsonString u.Name
    ++ ",\"Birth_Day_Of_Week\":" ++ decimalInt u.Birth_Day_Of_Week
    ++ ",\"Rfc_Created_On\":" ++ jsonString u.Rfc_Created_On ++ "\x7d"

/-- Go `append(s, x)` on a slice that may be nil (`none`). -/
def goAppend {α : Type} (s : Option (List α)) (x : α) : Option (List α) :=
  some (s.getD [] ++ [x])

/-- Go `json.Marshal` of a `[]UserInfo`: a nil slice is encoded as `null`, any other slice
as a JSON array of its elements. No value of this type makes the encoder fail. -/
def json_Marshal (usersInfo : Option (List UserInfo)) : Except String String :=
  match usersInfo with
  | none => .ok "null"
  | some xs => .ok ("[" ++ ",".intercalate (xs.map marshalUserInfo) ++ "]")

/-! ## Collaborators -/

/-- A decoded image: the extent of its bounds and its pixel data. -/
structure Image where
  Dx : Nat
  Dy : Nat
  Pix : List Nat
  deriving DecidableEq, Repr

/-- The capabilities the handlers call but do not implement. -/
structure Env where
  /-- the location `time.Local` -/
  Local : Location
  /-- `json.Unmarshal(body, &users)`: the decoded records, or the decoder's error text -/
  jsonUnmarshal : String → Except String (List User)
  /-- `time.LoadLocation(name)`: the zone of the time-zone database, or the error text -/
  LoadLocation : String → Except String Location
  /-- `jpeg.Decode`: the image, or the decoder's error text -/
  jpegDecode : String → Except String Image
  /-- `imaging.Resize(img, width, height, imaging.Lanczos)` -/
  Resize : Image → Nat → Nat → Image
  /-- `png.Encode`: the PNG bytes, or the encoder's error text -/
  pngEncode : Image → Except String String

/-! ## `postJson` (`src/main.go`, lines 39-186) -/

/-- The error response of the branches that call `WriteHeader` before setting the content
type (lines 49-51 and alike). -/
def badRequest (responseWriter : ResponseWriter) (msg : String) : ResponseWriter :=
  ((responseWriter.WriteHeader 400).HeaderSet "Content-Type" "text/plain").Write
    (badRequestString ++ msg)

/-- The error response of the body-read branches, which set the content type first
(lines 63-65 and 215-217). -/
def badRequestRead (responseWriter : ResponseWriter) (msg : String) : ResponseWriter :=
  ((responseWriter.HeaderSet "Content-Type" "text/plain").WriteHeader 400).Write
    (badRequestString ++ msg)

/-- The message of the `User_Id` check (line 91). -/
def userIdErr : String :=
  "Expected JSON key user_id not set or set to invalid value; user_id must be set to a value greater than 0"

/-- The message of the `Name` check (line 103). -/
def userNameErr : String :=
  "Expected JSON key name not set or set to invalid value; name must be set to a valid string"

/-- The message of the `Created_On` check (line 132). -/
def createdOnErr : String :=
  "Expected JSON key created_on not set or set to invalid value; created_on must be set to a valid greater than 0"

/-- One iteration of the loop over the users (lines 88-167): either the iteration returns
from the handler, having written the error response (`.error`), or it yields the `UserInfo`
to append (`.ok`). -/
def postJsonUser (env : Env) (responseWriter : ResponseWriter) (user : User) :
    Except ResponseWriter UserInfo :=
  if user.User_Id ≤ 0 then .error (badRequest responseWriter userIdErr)
  else if user.Name = "" then .error (badRequest responseWriter userNameErr)
  else
    match time_Parse user.Date_Of_Birth with
    | .error timeParseErr => .error (badRequest responseWriter timeParseErr.Error)
    | .ok dateOfBirth =>
      let createdOn := time_Unix env.Local user.Created_On
      if createdOn.Before (time_Unix env.Local 0) || createdOn.Equal (time_Unix env.Local 0) then
        .error (badRequest responseWriter createdOnErr)
      else
        match env.LoadLocation "EST" with
        | .error loadLocationErr => .error (badRequest responseWriter loadLocationErr)
        | .ok location =>
          let createdOn := createdOn.In location
          .ok { User_Id := user.User_Id
                Name := user.Name
                Birth_Day_Of_Week := dateOfBirth.Day
                Rfc_Created_On := createdOn.Format }

/-- The loop over the users and what follows it (lines 88-185): `usersInfo` is the slice
accumulated so far. -/
def postJsonLoop (env : Env) (responseWriter : ResponseWriter) :
    List User → Option (List UserInfo) → ResponseWriter
  | [], usersInfo =>
    match json_Marshal usersInfo with
    | .error jsonMarshalErr => badRequest responseWriter jsonMarshalErr
    | .ok userInfoData =>
      (responseWriter.HeaderSet "Content-Type" "application/json").Write userInfoData
  | user :: rest, usersInfo =>
    match postJsonUser env responseWriter user with
    | .error written => written
    | .ok userInfo => postJsonLoop env responseWriter rest (goAppend usersInfo userInfo)

/-- The handler of `/json`. -/
def postJson (env : Env) (responseWriter : ResponseWriter) (request : Request) : ResponseWriter :=
  if request.Method ≠ "POST" then
    badRequest responseWriter ("Expected POST request method, instead received " ++ request.Method)
  else
    match request.Body with
    | .error err => badRequestRead responseWriter err
    | .ok body =>
      match env.jsonUnmarshal body with
      | .error jsonUnmarshalErr => badRequest responseWriter jsonUnmarshalErr
      | .ok users => postJsonLoop env responseWriter users none

/-! ## `postJpegToPng` (`src/main.go`, lines 191-276) -/

/-- A non-negative float64 value `num / 2 ^ exp`. -/
structure F64 where
  num : Nat
  exp : Nat
  deriving DecidableEq, Repr

/-- Go `float64(n)` for an image extent (exact below `2 ^ 53`). -/
def F64.ofNat (n : Nat) : F64 := { num := n, exp := 0 }

/-- The binary exponent of the float64 quotient `a / b` for `a < b`: the least `e` with
`2 ^ 52 ≤ a * 2 ^ e / b`, capped at 1074 (the exponent of the subnormal numbers). -/
def f64Exp : Nat → Nat → Nat → Nat → Nat
  | 0, _, _, e => e
  | fuel + 1, a, b, e => if 2 ^ 52 * b ≤ a * 2 ^ e then e else f64Exp fuel a b (e + 1)

/-- IEEE-754 binary64 division `float64(a) / float64(b)` for `a < b`, rounding the
53-bit significand to nearest, ties to even. -/
def F64.div (a b : Nat) : F64 :=
  let e := f64Exp 1074 a b 0
  let q := a * 2 ^ e / b
  let r := a * 2 ^ e % b
  let m := if 2 * r < b then q else if 2 * r > b then q + 1 else if q % 2 = 0 then q else q + 1
  { num := m, exp := e }

/-- The float64 product `256 * x` (exact: a multiplication by a power of two). -/
def F64.mul256 (x : F64) : F64 := { num := 256 * x.num, exp := x.exp }

/-- Go `int(x)` of a non-negative float64: truncation. -/
def F64.toInt (x : F64) : Nat := x.num / 2 ^ x.exp

/-- The target width and height (lines 236-254): `int(scaledWidth)`, `int(scaledHeight)`. -/
def targetDimensions (dx dy : Nat) : Nat × Nat :=
  let scaledWidth : F64 := F64.ofNat 256
  let scaledHeight : F64 := F64.ofNat 256
  if dy > dx then ((F64.div dx dy).mul256.toInt, scaledHeight.toInt)
  else if dx > dy then (scaledWidth.toInt, (F64.div dy dx).mul256.toInt)
  else (scaledWidth.toInt, scaledHeight.toInt)

/-- The handler of `/jpeg-to-png`. -/
def postJpegToPng (env : Env) (responseWriter : ResponseWriter) (request : Request) :
    ResponseWriter :=
  if request.Method ≠ "POST" then
    badRequest responseWriter ("Expected POST request method, instead received " ++ request.Method)
  else
    match request.Body with
    | .error err => badRequestRead responseWriter err
    | .ok body =>
      match env.jpegDecode body with
      | .error jpegDecodeErr => badRequest responseWriter jpegDecodeErr
      | .ok jpeg =>
        let target := targetDimensions jpeg.Dx jpeg.Dy
        let jpeg := env.Resize jpeg target.1 target.2
        match env.pngEncode jpeg with
        | .error pngEncodeErr => badRequest responseWriter pngEncodeErr
        | .ok pngBuffer => (responseWriter.HeaderSet "Content-Type" "image/png").Write pngBuffer

/-! ## The specification's reading of the `/json` pipeline -/

/-- A `Created_On` that is an `int64` and for which `time.Unix` does not wrap around:
at most `2 ^ 63 - 1 - unixToInternal`. -/
def createdOnInRange (c : Int) : Prop :=
  -9223372036854775808 ≤ c ∧ c ≤ 9223371974719179007

instance (c : Int) : Decidable (createdOnInRange c) := by
  unfold createdOnInRange; infer_instance

/-- The checks of one record in the order of the specification (4.1, steps 2a-2d): the
message of the first check that fails, if any. -/
def userCheck (u : User) : Option String :=
  if u.User_Id ≤ 0 then some userIdErr
  else if u.Name = "" then some userNameErr
  else
    match time_Parse u.Date_Of_Birth with
    | .error e => some e.Error
    | .ok _ => if u.Created_On ≤ 0 then some createdOnErr else none

/-- The message of the first failing check of the first failing record, in array order. -/
def firstFailure (users : List User) : Option String := users.findSome? userCheck

/-- The `UserInfo` built for an accepted record (lines 156-164). -/
def acceptedInfo (env : Env) (location : Location) (user : User) : UserInfo :=
  { User_Id := user.User_Id
    Name := user.Name
    Birth_Day_Of_Week :=
      match time_Parse user.Date_Of_Birth with
      | .ok dateOfBirth => dateOfBirth.Day
      | .error _ => 0
    Rfc_Created_On := ((time_Unix env.Local user.Created_On).In location).Format }

/-- An environment for evaluating the handlers on concrete inputs: the JSON decoder yields
`users` (the records that the body sent denotes), the time-zone lookup yields `tz`, the JPEG
decoder yields `img`. -/
def envOf (users : Except String (List User)) (tz : Except String Location)
    (img : Except String Image) : Env :=
  { Local := UTC
    jsonUnmarshal := fun _ => users
    LoadLocation := fun _ => tz
    jpegDecode := fun _ => img
    Resize := fun i dx dy => { Dx := dx, Dy := dy, Pix := i.Pix }
    pngEncode := fun _ => .ok "PNG" }

/-- The zone named `EST` of the IANA time-zone database: five hours west of UTC all year,
without daylight-saving rules. -/
def tzdataEST : Location := { name := "EST", offsetAt := fun _ => -18000 }

/-- The number of days of a month of the Gregorian calendar, as the specification reads a
calendar date: a year is a leap year when it is divisible by 4 and not by 100, or by 400. -/
def daysInMonth (year month : Nat) : Nat :=
  match month with
  | 1 => 31
  | 2 => if (year % 4 = 0 ∧ year % 100 ≠ 0) ∨ year % 400 = 0 then 29 else 28
  | 3 => 31
  | 4 => 30
  | 5 => 31
  | 6 => 30
  | 7 => 31
  | 8 => 31
  | 9 => 30
  | 10 => 31
  | 11 => 30
  | 12 => 31
  | _ => 0

/-- The text is exactly a four-digit year, a hyphen, a two-digit month, a hyphen and a
two-digit day, with nothing before or after, and denotes an existing calendar date: the
year, month and day it denotes. -/
def strictDate (s : String) : Option (Nat × Nat × Nat) :=
  match s.data with
  | [y1, y2, y3, y4, h1, m1, m2, h2, d1, d2] =>
    if isDigitChar y1 ∧ isDigitChar y2 ∧ isDigitChar y3 ∧ isDigitChar y4 ∧ h1 = Char.ofNat 45
        ∧ isDigitChar m1 ∧ isDigitChar m2 ∧ h2 = Char.ofNat 45
        ∧ isDigitChar d1 ∧ isDigitChar d2 then
      let year := 1000 * digitVal y1 + 100 * digitVal y2 + 10 * digitVal y3 + digitVal y4
      let month := 10 * digitVal m1 + digitVal m2
      let day := 10 * digitVal d1 + digitVal d2
      if 1 ≤ month ∧ month ≤ 12 ∧ 1 ≤ day ∧ day ≤ daysInMonth year month then
        some (year, month, day)
      else none
    else none
  | _ => none

/-- The month table of `monthDay`, checked for every day of a year with the given leap
flag: the month and day found for a day of the year are a valid date of that year and
lead back to the day of the year. -/
def monthDayInvOk (leap : Bool) : Bool :=
  (List.range 366).all fun k =>
    !(leap || decide (k < 365)) ||
    (decide (1 ≤ (monthDay leap (k : Int)).1) && decide ((monthDay leap (k : Int)).1 ≤ 12)
      && decide (1 ≤ (monthDay leap (k : Int)).2)
      && decide ((monthDay leap (k : Int)).2 ≤
        (if (monthDay leap (k : Int)).1 = 2 && leap then 29
         else daysBefore (monthDay leap (k : Int)).1 - daysBefore ((monthDay leap (k : Int)).1 - 1)))
      && decide (daysBefore ((monthDay leap (k : Int)).1 - 1)
        + (if leap && decide (3 ≤ (monthDay leap (k : Int)).1) then 1 else 0)
        + ((monthDay leap (k : Int)).2 - 1) = (k : Int)))

/-- The record of the specification's first example scenario. -/
def joe : User :=
  { User_Id := 1, Name := "Joe Smith", Date_Of_Birth := "2022-01-19", Created_On := 1642608434 }

/-- A second valid record. -/
def jane : User :=
  { User_Id := 2, Name := "Jane Doe", Date_Of_Birth := "1990-08-06", Created_On := 1642608434 }

/-- The first example record with another `Created_On`. -/
def joeAt (createdOn : Int) : User := { joe with Created_On := createdOn }

/-- The first example record without name. -/
def noName : User := { joe with Name := "" }

/-- The first example record without date of birth. -/
def noDate : User := { joe with Date_Of_Birth := "" }

/-- A record none of whose keys is set: every field has the zero value of its type. -/
def noField : User := { User_Id := 0, Name := "", Date_Of_Birth := "", Created_On := 0 }

/-- The JSON text of a user record. -/
def marshalUser (u : User) : String :=
  "\x7b\"User_Id\":" ++ decimalInt u.User_Id ++ ",\"Name\":" ++ jsonString u.Name
    ++ ",\"Date_Of_Birth\":" ++ jsonString u.Date_Of_Birth
    ++ ",\"Created_On\":" ++ decimalInt u.Created_On ++ "\x7d"

/-- The JSON text of an array of user records. -/
def usersJson (users : List User) : String :=
  "[" ++ ",".intercalate (users.map marshalUser) ++ "]"

/-- A POST request whose body is the JSON text of `users`. -/
def postOf (users : List User) : Request :=
  { Method := "POST", Body := .ok (usersJson users) }

/-- An environment in which everything works: the decoder yields `users`, the records that
the body of `postOf users` denotes, and the zone `EST` is the one of the time-zone database. -/
def envWith (users : List User) : Env :=
  envOf (.ok users) (.ok tzdataEST) (.error "invalid JPEG format: missing SOI marker")

/-- An environment without time-zone database: the lookup of a zone fails. -/
def envNoZone (users : List User) : Env :=
  envOf (.ok users) (.error "unknown time zone EST")
    (.error "invalid JPEG format: missing SOI marker")

/-- Rounding of the quotient `n / d` to the nearest integer, halves upwards: the
`round` of the specification. -/
def specRound (n d : Nat) : Nat := (2 * n + d) / (2 * d)

/-- The target dimensions as the specification words them (4.2, step 3), with `round`. -/
def specTarget (w h : Nat) : Nat × Nat :=
  if h > w then (specRound (256 * w) h, 256)
  else if w > h then (256, specRound (256 * h) w)
  else (256, 256)

/-- The month table of `monthDay`, checked for every month and day of a year with the
given leap flag: the day of the year of a valid date leads back to its month and day. -/
def monthDayOk (leap : Bool) : Bool :=
  (List.range 13).all fun m => (List.range 32).all fun d =>
    !(decide (1 ≤ m) && decide (1 ≤ d) &&
      decide ((d : Int) ≤ (if m = 2 && leap then 29 else daysBefore m - daysBefore (m - 1)))) ||
    decide (monthDay leap
      (daysBefore (m - 1) + (if leap && decide (3 ≤ m) then 1 else 0) + ((d : Int) - 1))
      = (m, (d : Int)))

/-! ## `postJson` with the encoder as a collaborator -/

/-- The loop of `postJson` and what follows it (lines 88-185), with `json.Marshal` taken as
a collaborator `marshal` that may return an error. -/
def postJsonLoopWith (marshal : Option (List UserInfo) → Except String String) (env : Env)
    (responseWriter : ResponseWriter) : List User → Option (List UserInfo) → ResponseWriter
  | [], usersInfo =>
    match marshal usersInfo with
    | .error jsonMarshalErr => badRequest responseWriter jsonMarshalErr
    | .ok userInfoData =>
      (responseWriter.HeaderSet "Content-Type" "application/json").Write userInfoData
  | user :: rest, usersInfo =>
    match postJsonUser env responseWriter user with
    | .error written => written
    | .ok userInfo =>
      postJsonLoopWith marshal env responseWriter rest (goAppend usersInfo userInfo)

/-- The handler of `/json` with `json.Marshal` taken as a collaborator that may return an
error. -/
def postJsonWith (marshal : Option (List UserInfo) → Except String String) (env : Env)
    (responseWriter : ResponseWriter) (request : Request) : ResponseWriter :=
  if request.Method ≠ "POST" then
    badRequest responseWriter ("Expected POST request method, instead received " ++ request.Method)
  else
    match request.Body with
    | .error err => badRequestRead responseWriter err
    | .ok body =>
      match env.jsonUnmarshal body with
      | .error jsonUnmarshalErr => badRequest responseWriter jsonUnmarshalErr
      | .ok users => postJsonLoopWith marshal env responseWriter users none

/-! ## `postJpegToPng` of `src/httpserver/main.go` (lines 144-189) -/

/-- How a call of a handler ends: it returns to the server, leaving the response writer in
the given state, or the process is ended by `os.Exit` with the given status. -/
inductive Outcome where
  | returned (responseWriter : ResponseWriter)
  | exited (status : Nat)
  deriving DecidableEq, Repr

namespace httpserver

/-- The target width and height (lines 163-175). In the branch of the wider image the
height is `scaledWidth * (height / width)`, where `scaledWidth` still is 256. -/
def targetDimensions (dx dy : Nat) : Nat × Nat :=
  let scaledWidth : F64 := F64.ofNat 256
  let scaledHeight : F64 := F64.ofNat 256
  if dy > dx then ((F64.div dx dy).mul256.toInt, scaledHeight.toInt)
  else if dx > dy then (scaledWidth.toInt, (F64.div dy dx).mul256.toInt)
  else (scaledWidth.toInt, scaledHeight.toInt)

/-- The handler of `/jpeg-to-png` of `src/httpserver/main.go`: no test of the method, and
the three failure branches call `os.Exit`. -/
def postJpegToPng (env : Env) (responseWriter : ResponseWriter) (request : Request) : Outcome :=
  match request.Body with
  | .error _ => .exited 6
  | .ok body =>
    match env.jpegDecode body with
    | .error _ => .exited 7
    | .ok jpeg =>
      let target := targetDimensions jpeg.Dx jpeg.Dy
      let jpeg := env.Resize jpeg target.1 target.2
      match env.pngEncode jpeg with
      | .error _ => .exited 8
      | .ok pngBuffer =>
        .returned ((responseWriter.HeaderSet "Content-Type" "image/png").Write pngBuffer)

end httpserver

/-- A POST request whose body stands for the bytes of a JPEG file. -/
def jpegPost : Request := { Method := "POST", Body := .ok "JFIF" }

/-- An environment whose JPEG decoder yields an image of the given extent. -/
def envImage (dx dy : Nat) : Env :=
  envOf (.ok []) (.ok tzdataEST) (.ok { Dx := dx, Dy := dy, Pix := [] })

/-- An environment whose JPEG decoder yields an image of the given extent and whose PNG
encoder fails. -/
def envNoPng (dx dy : Nat) : Env :=
  { envImage dx dy with pngEncode := fun _ => .error "png: invalid format" }

/-! # Properties -/

/-! ## Responses -/

theorem badRequestString_eq : badRequestString = "400 Bad Request\n" := by decide

theorem empty_append (s : String) : "" ++ s = s := by
  apply String.ext; simp [String.data_append]

theorem badRequest_NewRecorder (msg : String) :
    badRequest NewRecorder msg =
      { Code := 400, wroteHeader := true, HeaderMap := [("Content-Type", "text/plain")],
        sentHeader := [], Body := "400 Bad Request\n" ++ msg } := by
  simp [badRequest, NewRecorder, ResponseWriter.WriteHeader, ResponseWriter.HeaderSet,
    ResponseWriter.Write, badRequestString_eq, empty_append]

theorem badRequestRead_NewRecorder (msg : String) :
    badRequestRead NewRecorder msg =
      { Code := 400, wroteHeader := true, HeaderMap := [("Content-Type", "text/plain")],
        sentHeader := [("Content-Type", "text/plain")], Body := "400 Bad Request\n" ++ msg } := by
  simp [badRequestRead, NewRecorder, ResponseWriter.WriteHeader, ResponseWriter.HeaderSet,
    ResponseWriter.Write, badRequestString_eq, empty_append]

theorem write_NewRecorder (ct data : String) :
    (NewRecorder.HeaderSet "Content-Type" ct).Write data =
      { Code := 200, wroteHeader := true, HeaderMap := [("Content-Type", ct)],
        sentHeader := [("Content-Type", ct)], Body := data } := by
  simp [NewRecorder, ResponseWriter.WriteHeader, ResponseWriter.HeaderSet,
    ResponseWriter.Write, empty_append]

/-! ## The `Created_On` check -/

theorem unixToInternal_eq : unixToInternal = 62135596800 := by decide

theorem wrapInt64_of_range (x : Int) (h1 : -9223372036854775808 ≤ x)
    (h2 : x < 9223372036854775808) : wrapInt64 x = x := by
  unfold wrapInt64
  norm_num
  omega

/-- Within the range where `time.Unix` does not wrap, the test of lines 131 is `Created_On ≤ 0`. -/
theorem createdOn_check (l : Location) (c : Int) (h : createdOnInRange c) :
    ((time_Unix l c).Before (time_Unix l 0) || (time_Unix l c).Equal (time_Unix l 0))
      = decide (c ≤ 0) := by
  obtain ⟨h1, h2⟩ := h
  have e1 : wrapInt64 (c + unixToInternal) = c + unixToInternal := by
    apply wrapInt64_of_range <;> rw [unixToInternal_eq] <;> omega
  have e0 : wrapInt64 (0 + unixToInternal) = 0 + unixToInternal := by
    apply wrapInt64_of_range <;> rw [unixToInternal_eq] <;> omega
  simp only [time_Unix, Time.Before, Time.Equal, e1, e0]
  rw [Bool.eq_iff_iff]
  simp
  omega

/-! ## The loop of `postJson` -/

/-- One iteration, read as the ordered checks of the specification. -/
theorem postJsonUser_eq (env : Env) (w : ResponseWriter) (loc : Location) (u : User)
    (hloc : env.LoadLocation "EST" = .ok loc) (hr : createdOnInRange u.Created_On) :
    postJsonUser env w u =
      match userCheck u with
      | some msg => .error (badRequest w msg)
      | none => .ok (acceptedInfo env loc u) := by
  unfold postJsonUser userCheck acceptedInfo
  by_cases h1 : u.User_Id ≤ 0
  · simp [h1]
  · by_cases h2 : u.Name = ""
    · simp [h1, h2]
    · simp only [h1, h2, if_false]
      cases hp : time_Parse u.Date_Of_Birth with
      | error e => simp
      | ok t =>
        simp only [createdOn_check env.Local u.Created_On hr, hloc]
        by_cases h4 : u.Created_On ≤ 0 <;> simp [h4]

theorem foldl_goAppend_some {α : Type} (ys xs : List α) :
    ys.foldl goAppend (some xs) = some (xs ++ ys) := by
  induction ys generalizing xs with
  | nil => simp
  | cons y ys ih => simp [goAppend, ih]

/-- The slice accumulated from nil: nil when nothing was appended. -/
theorem foldl_goAppend_none {α : Type} (ys : List α) :
    ys.foldl goAppend none = if ys.isEmpty then none else some ys := by
  cases ys with
  | nil => simp
  | cons y ys => simp [goAppend, foldl_goAppend_some]

theorem postJsonLoop_cons (env : Env) (w : ResponseWriter) (u : User) (us : List User)
    (acc : Option (List UserInfo)) :
    postJsonLoop env w (u :: us) acc =
      match postJsonUser env w u with
      | .error written => written
      | .ok userInfo => postJsonLoop env w us (goAppend acc userInfo) := rfl

/-- The loop answers with the first failing check, or marshals the accumulated slice. -/
theorem postJsonLoop_eq (env : Env) (w : ResponseWriter) (loc : Location)
    (hloc : env.LoadLocation "EST" = .ok loc) (users : List User)
    (acc : Option (List UserInfo)) (hr : ∀ u ∈ users, createdOnInRange u.Created_On) :
    postJsonLoop env w users acc =
      match firstFailure users with
      | some msg => badRequest w msg
      | none => postJsonLoop env w [] ((users.map (acceptedInfo env loc)).foldl goAppend acc) := by
  induction users generalizing acc with
  | nil => simp [firstFailure]
  | cons u us ih =>
    have hu := postJsonUser_eq env w loc u hloc (hr u (List.mem_cons_self u us))
    have hus : ∀ v ∈ us, createdOnInRange v.Created_On :=
      fun v hv => hr v (List.mem_cons_of_mem u hv)
    rw [postJsonLoop_cons, hu]
    cases hc : userCheck u with
    | some msg => simp [firstFailure, List.findSome?_cons, hc]
    | none =>
      simp only [firstFailure, List.findSome?_cons, hc]
      rw [ih _ hus]
      simp [firstFailure]

/-- The response when every record is accepted. -/
theorem postJsonLoop_nil (env : Env) (slice : Option (List UserInfo)) :
    postJsonLoop env NewRecorder [] slice =
      { Code := 200, wroteHeader := true, HeaderMap := [("Content-Type", "application/json")],
        sentHeader := [("Content-Type", "application/json")],
        Body := match slice with
          | none => "null"
          | some xs => "[" ++ ",".intercalate (xs.map marshalUserInfo) ++ "]" } := by
  cases slice <;> simp [postJsonLoop, json_Marshal, write_NewRecorder]

/-- The whole handler on a POST request whose body parses into `users`. -/
theorem postJson_eq (env : Env) (request : Request) (body : String) (users : List User)
    (loc : Location) (hm : request.Method = "POST") (hb : request.Body = .ok body)
    (hu : env.jsonUnmarshal body = .ok users) (hloc : env.LoadLocation "EST" = .ok loc)
    (hr : ∀ u ∈ users, createdOnInRange u.Created_On) :
    postJson env NewRecorder request =
      match firstFailure users with
      | some msg => badRequest NewRecorder msg
      | none =>
        postJsonLoop env NewRecorder []
          (if users.isEmpty then none else some (users.map (acceptedInfo env loc))) := by
  unfold postJson
  simp only [hm, hb, hu, ne_eq, not_true_eq_false, if_false]
  rw [postJsonLoop_eq env NewRecorder loc hloc users none hr, foldl_goAppend_none]
  cases users <;> simp

/-! ## The calendar of package `time` -/

theorem ediv_of_eq (n d q r : Int) (hd : 0 < d) (h : n = d * q + r) (h0 : 0 ≤ r) (h1 : r < d) :
    n / d = q := by
  subst h
  rw [Int.add_comm, Int.add_mul_ediv_left _ _ (ne_of_gt hd), Int.ediv_eq_zero_of_lt h0 h1]
  simp

/-- `absDate` inverts the day count of a year given by its position in the 400-year cycle. -/
theorem absDate_of_parts (a b c e k : Int) (hb0 : 0 ≤ b) (hb : b ≤ 3) (hc0 : 0 ≤ c) (hc : c ≤ 24)
    (he0 : 0 ≤ e) (he : e ≤ 3) (hk0 : 0 ≤ k)
    (hk : k < 365 ∨ (k = 365 ∧ e = 3 ∧ (c ≠ 24 ∨ b = 3))) :
    absDate (146097 * a + 36524 * b + 1461 * c + 365 * e + k)
      = (400 * a + 100 * b + 4 * c + e + 1, k) := by
  have h1 : (146097 * a + 36524 * b + 1461 * c + 365 * e + k) / 146097 = a :=
    ediv_of_eq _ _ a (36524 * b + 1461 * c + 365 * e + k) (by norm_num) (by ring)
      (by omega) (by omega)
  have h2 : 146097 * a + 36524 * b + 1461 * c + 365 * e + k - 146097 * a
      = 36524 * b + 1461 * c + 365 * e + k := by ring
  have h3 : (36524 * b + 1461 * c + 365 * e + k) / 36524
      - (36524 * b + 1461 * c + 365 * e + k) / 36524 / 4 = b := by
    by_cases hs : 1461 * c + 365 * e + k < 36524
    · have : (36524 * b + 1461 * c + 365 * e + k) / 36524 = b :=
        ediv_of_eq _ _ b (1461 * c + 365 * e + k) (by norm_num) (by ring) (by omega) hs
      rw [this]
      omega
    · have hb3 : b = 3 := by omega
      have : (36524 * b + 1461 * c + 365 * e + k) / 36524 = 4 :=
        ediv_of_eq _ _ 4 0 (by norm_num) (by omega) (by norm_num) (by norm_num)
      rw [this, hb3]
      norm_num
  have h4 : 36524 * b + 1461 * c + 365 * e + k - 36524 * b = 1461 * c + 365 * e + k := by ring
  have h5 : (1461 * c + 365 * e + k) / 1461 = c :=
    ediv_of_eq _ _ c (365 * e + k) (by norm_num) (by ring) (by omega) (by omega)
  have h6 : 1461 * c + 365 * e + k - 1461 * c = 365 * e + k := by ring
  have h7 : (365 * e + k) / 365 - (365 * e + k) / 365 / 4 = e := by
    by_cases hs : k < 365
    · have : (365 * e + k) / 365 = e :=
        ediv_of_eq _ _ e k (by norm_num) (by ring) hk0 hs
      rw [this]
      omega
    · have he3 : e = 3 := by omega
      have : (365 * e + k) / 365 = 4 :=
        ediv_of_eq _ _ 4 0 (by norm_num) (by omega) (by norm_num) (by norm_num)
      rw [this, he3]
      norm_num
  have h8 : 365 * e + k - 365 * e = k := by ring
  simp only [absDate, h1, h2, h3, h4, h5, h6, h7, h8, Prod.mk.injEq, and_true]

/-- The position of a year in the 400-year cycle that starts with a year `1 mod 400`. -/
theorem daysSinceEpoch_parts (y : Int) :
    ∃ a b c e : Int, 0 ≤ b ∧ b ≤ 3 ∧ 0 ≤ c ∧ c ≤ 24 ∧ 0 ≤ e ∧ e ≤ 3 ∧
      y = 400 * a + 100 * b + 4 * c + e + 1 ∧
      daysSinceEpoch y = 146097 * a + 36524 * b + 1461 * c + 365 * e := by
  refine ⟨(y - 1) / 400, ((y - 1) - 400 * ((y - 1) / 400)) / 100,
    ((y - 1) - 400 * ((y - 1) / 400) - 100 * (((y - 1) - 400 * ((y - 1) / 400)) / 100)) / 4,
    (y - 1) - 400 * ((y - 1) / 400) - 100 * (((y - 1) - 400 * ((y - 1) / 400)) / 100)
      - 4 * (((y - 1) - 400 * ((y - 1) / 400)
        - 100 * (((y - 1) - 400 * ((y - 1) / 400)) / 100)) / 4), ?_, ?_, ?_, ?_, ?_, ?_, ?_, ?_⟩
  all_goals first | rfl | omega

theorem isLeap_iff (y : Int) : isLeap y = true ↔ (y % 4 = 0 ∧ (y % 100 ≠ 0 ∨ y % 400 = 0)) := by
  simp [isLeap]

/-- `absDate` recovers the year and the day of the year. -/
theorem absDate_daysSinceEpoch (y k : Int) (h0 : 0 ≤ k)
    (h1 : k < if isLeap y then 366 else 365) : absDate (daysSinceEpoch y + k) = (y, k) := by
  obtain ⟨a, b, c, e, hb0, hb, hc0, hc, he0, he, hy, hd⟩ := daysSinceEpoch_parts y
  rw [hd]
  conv_rhs => rw [hy]
  apply absDate_of_parts a b c e k hb0 hb hc0 hc he0 he h0
  by_cases hl : isLeap y = true
  · rw [if_pos hl] at h1
    rw [isLeap_iff] at hl
    by_cases hk : k < 365
    · exact Or.inl hk
    · right
      refine ⟨by omega, by omega, ?_⟩
      by_cases hc24 : c = 24
      · right; omega
      · left; exact hc24
  · rw [if_neg hl] at h1
    exact Or.inl h1

theorem monthDayOk_all (leap : Bool) : monthDayOk leap = true := by
  cases leap <;> rfl

theorem daysBefore_diff_le (m : Nat) (hm1 : 1 ≤ m) (hm : m ≤ 12) :
    daysBefore m - daysBefore (m - 1) ≤ 31 ∧ 0 ≤ daysBefore (m - 1) ∧ daysBefore m ≤ 365
      ∧ (m ≤ 2 → daysBefore m ≤ 59) := by
  interval_cases m <;> decide

/-- The month and day of the month are recovered from the day of the year. -/
theorem monthDay_table (leap : Bool) (m d : Nat) (hm1 : 1 ≤ m) (hm : m ≤ 12) (hd1 : 1 ≤ d)
    (hd : (d : Int) ≤ (if m = 2 && leap then 29 else daysBefore m - daysBefore (m - 1))) :
    monthDay leap (daysBefore (m - 1) + (if leap && decide (3 ≤ m) then 1 else 0) + ((d : Int) - 1))
      = (m, (d : Int)) := by
  have hd31 : d < 32 := by
    have := (daysBefore_diff_le m hm1 hm).1
    split at hd <;> omega
  have h := monthDayOk_all leap
  simp only [monthDayOk, List.all_eq_true, List.mem_range] at h
  have h2 := h m (by omega) d hd31
  simp only [hm1, hd1, hd, decide_True, Bool.and_self, Bool.not_true, Bool.false_or,
    decide_eq_true_eq] at h2
  exact h2

/-- A valid calendar date survives `time.Date` followed by `Date()`. -/
theorem Date_time_Date (y : Int) (m d : Nat) (hm1 : 1 ≤ m) (hm : m ≤ 12) (hd1 : 1 ≤ d)
    (hd : (d : Int) ≤ daysIn m y) : (time_Date y m d UTC).Date = (y, m, (d : Int)) := by
  have hb := daysBefore_diff_le m hm1 hm
  have hk : daysSinceEpoch y + daysBefore (m - 1)
      + (if isLeap y && decide (3 ≤ m) then 1 else 0) + ((d : Int) - 1)
      = daysSinceEpoch y + (daysBefore (m - 1)
        + (if isLeap y && decide (3 ≤ m) then 1 else 0) + ((d : Int) - 1)) := by ring
  have habs : (time_Date y m d UTC).abs / 86400
      = daysSinceEpoch y + (daysBefore (m - 1)
        + (if isLeap y && decide (3 ≤ m) then 1 else 0) + ((d : Int) - 1)) := by
    rw [← hk]
    simp only [Time.abs, time_Date, UTC, add_zero]
    split <;> simp
  have hd2 : (d : Int) ≤ (if m = 2 && isLeap y then 29 else daysBefore m - daysBefore (m - 1)) := by
    simpa [daysIn] using hd
  have hyd := absDate_daysSinceEpoch y (daysBefore (m - 1)
      + (if isLeap y && decide (3 ≤ m) then 1 else 0) + ((d : Int) - 1)) (by
        split <;> omega) (by
        cases hl : isLeap y
        · simp only [hl, Bool.false_and, Bool.and_false] at hd2 ⊢
          simp at hd2 ⊢
          omega
        · by_cases hm3 : 3 ≤ m
          · have : ¬ m = 2 := by omega
            simp [hl, hm3, this] at hd2 ⊢
            omega
          · have h59 := hb.2.2.2 (by omega)
            by_cases hm2 : m = 2
            · subst hm2
              simp [hl] at hd2 ⊢
              have : daysBefore 1 = 31 := by decide
              omega
            · simp [hl, hm3, hm2] at hd2 ⊢
              omega)
  simp only [Time.Date, habs, hyd]
  rw [monthDay_table (isLeap y) m d hm1 hm hd1 hd2]

theorem Day_time_Date (y : Int) (m d : Nat) (hm1 : 1 ≤ m) (hm : m ≤ 12) (hd1 : 1 ≤ d)
    (hd : (d : Int) ≤ daysIn m y) : (time_Date y m d UTC).Day = (d : Int) := by
  simp [Time.Day, Date_time_Date y m d hm1 hm hd1 hd]

/-! ## `time.Parse` with the layout `2006-01-02` -/

theorem digitVal_le (c : Char) (h : isDigitChar c = true) : digitVal c ≤ 9 := by
  simp [isDigitChar] at h
  unfold digitVal
  omega

theorem not_sign_of_digit (c : Char) (h : isDigitChar c = true) :
    c ≠ Char.ofNat 45 ∧ c ≠ Char.ofNat 43 := by
  simp [isDigitChar] at h
  constructor <;> intro hc <;> rw [hc] at h <;> revert h <;> decide

theorem getnum_some (v rest : List Char) (n : Nat) (h : getnum v = some (n, rest)) :
    ∃ a b, v = a :: b :: rest ∧ isDigitChar a = true ∧ isDigitChar b = true
      ∧ n = digitVal a * 10 + digitVal b := by
  match v, h with
  | [], h => simp [getnum, isDigit] at h
  | [a], h => simp [getnum, isDigit] at h
  | a :: b :: r, h =>
    simp only [getnum, isDigit, List.get?] at h
    by_cases ha : isDigitChar a = true
    · by_cases hb : isDigitChar b = true
      · simp [ha, hb] at h
        exact ⟨a, b, by rw [h.2], ha, hb, h.1.symm⟩
      · simp [ha, hb] at h
    · simp [ha] at h

theorem getnum_digits (a b : Char) (rest : List Char) (ha : isDigitChar a = true)
    (hb : isDigitChar b = true) :
    getnum (a :: b :: rest) = some (digitVal a * 10 + digitVal b, rest) := by
  simp [getnum, isDigit, ha, hb]

theorem skipHyphen_some (v rest : List Char) (h : skipHyphen v = some rest) :
    v = Char.ofNat 45 :: rest := by
  match v, h with
  | [], h => simp [skipHyphen] at h
  | c :: r, h =>
    simp only [skipHyphen] at h
    by_cases hc : c = Char.ofNat 45
    · simp [hc] at h
      rw [hc, h]
    · simp [hc] at h

theorem atoi_digits (a b c d : Char) (ha : isDigitChar a = true) (hb : isDigitChar b = true)
    (hc : isDigitChar c = true) (hd : isDigitChar d = true) :
    atoi [a, b, c, d]
      = some ((1000 * digitVal a + 100 * digitVal b + 10 * digitVal c + digitVal d : Nat) : Int) := by
  have ha9 := digitVal_le a ha
  have hb9 := digitVal_le b hb
  have hc9 := digitVal_le c hc
  have hd9 := digitVal_le d hd
  have hs := not_sign_of_digit a ha
  have e : (2 : Nat) ^ 63 / 10 = 922337203685477580 := by norm_num
  have e2 : (2 : Nat) ^ 63 = 9223372036854775808 := by norm_num
  have l4 : leadingInt [a, b, c, d] 0
      = some (1000 * digitVal a + 100 * digitVal b + 10 * digitVal c + digitVal d, []) := by
    simp only [leadingInt, ha, hb, hc, hd, e, e2, if_true]
    repeat rw [if_neg (by omega)]
    congr 2
    ring
  simp [atoi, hs.1, hs.2, l4]

theorem leadingInt_all_digits (l : List Char) (x q : Nat) (h : leadingInt l x = some (q, [])) :
    ∀ c ∈ l, isDigitChar c = true := by
  induction l generalizing x with
  | nil => simp
  | cons c rest ih =>
    simp only [leadingInt] at h
    by_cases hc : isDigitChar c = true
    · simp only [hc, if_true] at h
      split at h
      · simp at h
      · split at h
        · simp at h
        · intro c1 hc1
          rcases List.mem_cons.mp hc1 with rfl | hmem
          · exact hc
          · exact ih _ h c1 hmem
    · simp [hc] at h

theorem atoi_some (a b c d : Char) (y : Int) (ha : isDigitChar a = true)
    (h : atoi [a, b, c, d] = some y) :
    isDigitChar b = true ∧ isDigitChar c = true ∧ isDigitChar d = true := by
  have hs := not_sign_of_digit a ha
  simp only [atoi, hs.1, hs.2, or_self, if_false] at h
  cases hl : leadingInt [a, b, c, d] 0 with
  | none => simp [hl] at h
  | some qr =>
    obtain ⟨q, rem⟩ := qr
    simp only [hl] at h
    cases rem with
    | cons r rs => simp at h
    | nil =>
      have hall := leadingInt_all_digits _ _ _ hl
      exact ⟨hall b (by simp), hall c (by simp), hall d (by simp)⟩

theorem daysIn_eq (y m : Nat) (hm1 : 1 ≤ m) (hm : m ≤ 12) :
    daysIn m (y : Int) = (daysInMonth y m : Int) := by
  interval_cases m <;> simp [daysIn, daysInMonth, daysBefore, isLeap]
  by_cases h : (y % 4 = 0 ∧ y % 100 ≠ 0) ∨ y % 400 = 0
  · have h2 : (y : Int) % 4 = 0 ∧ ((y : Int) % 100 ≠ 0 ∨ (y : Int) % 400 = 0) := by omega
    have h3 : (4 : Int) ∣ y ∧ (¬ (100 : Int) ∣ y ∨ (400 : Int) ∣ y) := by omega
    simp [h, h3]
  · have h3 : ¬ ((4 : Int) ∣ y ∧ (¬ (100 : Int) ∣ y ∨ (400 : Int) ∣ y)) := by omega
    simp [h, h3]

/-- What `time.Parse` returns on a text of the shape digits-hyphen-digits-hyphen-digits. -/
theorem time_Parse_shape (s : String) (y1 y2 y3 y4 m1 m2 d1 d2 : Char)
    (hs : s.data = [y1, y2, y3, y4, Char.ofNat 45, m1, m2, Char.ofNat 45, d1, d2])
    (hy1 : isDigitChar y1 = true) (hy2 : isDigitChar y2 = true) (hy3 : isDigitChar y3 = true)
    (hy4 : isDigitChar y4 = true) (hm1 : isDigitChar m1 = true) (hm2 : isDigitChar m2 = true)
    (hd1 : isDigitChar d1 = true) (hd2 : isDigitChar d2 = true)
    (hm : 1 ≤ 10 * digitVal m1 + digitVal m2 ∧ 10 * digitVal m1 + digitVal m2 ≤ 12)
    (hd : 1 ≤ 10 * digitVal d1 + digitVal d2 ∧ 10 * digitVal d1 + digitVal d2 ≤
      daysInMonth (1000 * digitVal y1 + 100 * digitVal y2 + 10 * digitVal y3 + digitVal y4)
        (10 * digitVal m1 + digitVal m2)) :
    time_Parse s = .ok (time_Date
      ((1000 * digitVal y1 + 100 * digitVal y2 + 10 * digitVal y3 + digitVal y4 : Nat) : Int)
      (10 * digitVal m1 + digitVal m2) ((10 * digitVal d1 + digitVal d2 : Nat) : Int) UTC) := by
  have hdi := daysIn_eq (1000 * digitVal y1 + 100 * digitVal y2 + 10 * digitVal y3 + digitVal y4)
    (10 * digitVal m1 + digitVal m2) hm.1 hm.2
  have e1 : digitVal m1 * 10 + digitVal m2 = 10 * digitVal m1 + digitVal m2 := by ring
  have e2 : digitVal d1 * 10 + digitVal d2 = 10 * digitVal d1 + digitVal d2 := by ring
  have h3 : ¬ (10 * digitVal m1 + digitVal m2 ≤ 0 ∨ 12 < 10 * digitVal m1 + digitVal m2) := by
    omega
  have h4 : ¬ (((10 * digitVal d1 + digitVal d2 : Nat) : Int) < 1 ∨
      ((10 * digitVal d1 + digitVal d2 : Nat) : Int) > ((daysInMonth
        (1000 * digitVal y1 + 100 * digitVal y2 + 10 * digitVal y3 + digitVal y4)
        (10 * digitVal m1 + digitVal m2) : Nat) : Int)) := by
    omega
  simp only [time_Parse, hs, isDigit, List.get?, hy1, List.take, List.drop,
    atoi_digits y1 y2 y3 y4 hy1 hy2 hy3 hy4, skipHyphen]
  simp only [List.length_cons, List.length_nil, if_true]
  rw [getnum_digits _ _ _ hm1 hm2]
  simp only [e1, h3, if_false, if_true]
  rw [getnum_digits _ _ _ hd1 hd2]
  simp only [e2, hdi, h4, if_false]
  simp

/-- A text that `time.Parse` accepts has the shape digits-hyphen-digits-hyphen-digits and
denotes an existing date. -/
theorem time_Parse_ok_shape (s : String) (t : Time) (h : time_Parse s = .ok t) :
    ∃ y1 y2 y3 y4 m1 m2 d1 d2 : Char,
      s.data = [y1, y2, y3, y4, Char.ofNat 45, m1, m2, Char.ofNat 45, d1, d2]
      ∧ isDigitChar y1 = true ∧ isDigitChar y2 = true ∧ isDigitChar y3 = true
      ∧ isDigitChar y4 = true ∧ isDigitChar m1 = true ∧ isDigitChar m2 = true
      ∧ isDigitChar d1 = true ∧ isDigitChar d2 = true
      ∧ (1 ≤ 10 * digitVal m1 + digitVal m2 ∧ 10 * digitVal m1 + digitVal m2 ≤ 12)
      ∧ (1 ≤ 10 * digitVal d1 + digitVal d2 ∧ 10 * digitVal d1 + digitVal d2 ≤
        daysInMonth (1000 * digitVal y1 + 100 * digitVal y2 + 10 * digitVal y3 + digitVal y4)
          (10 * digitVal m1 + digitVal m2)) := by
  rcases hv : s.data with _ | ⟨y1, _ | ⟨y2, _ | ⟨y3, _ | ⟨y4, rest⟩⟩⟩⟩
  · simp [time_Parse, hv] at h
  · simp [time_Parse, hv] at h
  · simp [time_Parse, hv] at h
  · simp [time_Parse, hv] at h
  · simp only [time_Parse, hv, isDigit, List.get?, List.take, List.drop] at h
    by_cases hy1 : isDigitChar y1 = true
    swap
    · simp [hy1] at h
    simp only [List.length_cons, hy1] at h
    rw [if_neg (by simp)] at h
    cases hat : atoi [y1, y2, y3, y4] with
    | none => simp [hat] at h
    | some year =>
      obtain ⟨hy2, hy3, hy4⟩ := atoi_some y1 y2 y3 y4 year hy1 hat
      rw [atoi_digits y1 y2 y3 y4 hy1 hy2 hy3 hy4] at h
      simp only at h
      cases hk1 : skipHyphen rest with
      | none => simp [hk1] at h
      | some v1 =>
        simp only [hk1] at h
        cases hg1 : getnum v1 with
        | none => simp [hg1] at h
        | some mv =>
          obtain ⟨month, v2⟩ := mv
          simp only [hg1] at h
          split at h
          · simp at h
          · rename_i hmr
            cases hk2 : skipHyphen v2 with
            | none => simp [hk2] at h
            | some v3 =>
              simp only [hk2] at h
              cases hg2 : getnum v3 with
              | none => simp [hg2] at h
              | some dv =>
                obtain ⟨day, v4⟩ := dv
                simp only [hg2] at h
                split at h
                · simp at h
                · rename_i hv4
                  split at h
                  · simp at h
                  · rename_i hdr
                    obtain ⟨m1, m2, hv1, hm1, hm2, hmonth⟩ := getnum_some _ _ _ hg1
                    obtain ⟨d1, d2, hv3, hd1, hd2, hday⟩ := getnum_some _ _ _ hg2
                    have hrest := skipHyphen_some _ _ hk1
                    have hv2 := skipHyphen_some _ _ hk2
                    have hnil : v4 = [] := by
                      cases v4 with
                      | nil => rfl
                      | cons x xs => simp at hv4
                    have hmm : 1 ≤ 10 * digitVal m1 + digitVal m2 ∧
                        10 * digitVal m1 + digitVal m2 ≤ 12 := by omega
                    have hme : month = 10 * digitVal m1 + digitVal m2 := by omega
                    have hdi := daysIn_eq
                      (1000 * digitVal y1 + 100 * digitVal y2 + 10 * digitVal y3 + digitVal y4)
                      (10 * digitVal m1 + digitVal m2) hmm.1 hmm.2
                    rw [hme, hdi] at hdr
                    refine ⟨y1, y2, y3, y4, m1, m2, d1, d2, ?_, hy1, hy2, hy3, hy4, hm1, hm2,
                      hd1, hd2, hmm, ?_⟩
                    · rw [hrest, hv1, hv2, hv3, hnil]
                    · omega


theorem time_Parse_error_value (s : String) (e : ParseError) (h : time_Parse s = .error e) :
    e.Value = s ∧ e.Layout = "2006-01-02" := by
  simp only [time_Parse] at h
  repeat' split at h
  all_goals first
    | (simp only [Except.error.injEq] at h; subst h; exact ⟨rfl, rfl⟩)
    | simp at h

theorem strictDate_shape (s : String) (y m d : Nat) (h : strictDate s = some (y, m, d)) :
    ∃ y1 y2 y3 y4 m1 m2 d1 d2 : Char,
      s.data = [y1, y2, y3, y4, Char.ofNat 45, m1, m2, Char.ofNat 45, d1, d2]
      ∧ isDigitChar y1 = true ∧ isDigitChar y2 = true ∧ isDigitChar y3 = true
      ∧ isDigitChar y4 = true ∧ isDigitChar m1 = true ∧ isDigitChar m2 = true
      ∧ isDigitChar d1 = true ∧ isDigitChar d2 = true
      ∧ y = 1000 * digitVal y1 + 100 * digitVal y2 + 10 * digitVal y3 + digitVal y4
      ∧ m = 10 * digitVal m1 + digitVal m2 ∧ d = 10 * digitVal d1 + digitVal d2
      ∧ 1 ≤ m ∧ m ≤ 12 ∧ 1 ≤ d ∧ d ≤ daysInMonth y m := by
  unfold strictDate at h
  split at h
  · rename_i y1 y2 y3 y4 h1 m1 m2 h2 d1 d2 heq
    split at h
    · rename_i hc
      simp only at h
      split at h
      · rename_i hr
        simp only [Option.some.injEq, Prod.mk.injEq] at h
        obtain ⟨rfl, rfl, rfl⟩ := h
        obtain ⟨a1, a2, a3, a4, a5, a6, a7, a8, a9, a10⟩ := hc
        subst a5 a8
        exact ⟨y1, y2, y3, y4, m1, m2, d1, d2, heq, a1, a2, a3, a4, a6, a7, a9, a10,
          rfl, rfl, rfl, hr.1, hr.2.1, hr.2.2.1, hr.2.2.2⟩
      · simp at h
    · simp at h
  · simp at h

theorem strictDate_of_shape (s : String) (y1 y2 y3 y4 m1 m2 d1 d2 : Char)
    (hs : s.data = [y1, y2, y3, y4, Char.ofNat 45, m1, m2, Char.ofNat 45, d1, d2])
    (hy1 : isDigitChar y1 = true) (hy2 : isDigitChar y2 = true) (hy3 : isDigitChar y3 = true)
    (hy4 : isDigitChar y4 = true) (hm1 : isDigitChar m1 = true) (hm2 : isDigitChar m2 = true)
    (hd1 : isDigitChar d1 = true) (hd2 : isDigitChar d2 = true)
    (hm : 1 ≤ 10 * digitVal m1 + digitVal m2 ∧ 10 * digitVal m1 + digitVal m2 ≤ 12)
    (hd : 1 ≤ 10 * digitVal d1 + digitVal d2 ∧ 10 * digitVal d1 + digitVal d2 ≤
      daysInMonth (1000 * digitVal y1 + 100 * digitVal y2 + 10 * digitVal y3 + digitVal y4)
        (10 * digitVal m1 + digitVal m2)) :
    strictDate s = some (1000 * digitVal y1 + 100 * digitVal y2 + 10 * digitVal y3 + digitVal y4,
      10 * digitVal m1 + digitVal m2, 10 * digitVal d1 + digitVal d2) := by
  unfold strictDate
  rw [hs]
  simp only [hy1, hy2, hy3, hy4, hm1, hm2, hd1, hd2, and_self, if_true, hm, hd]

/-- An accepted text is parsed into the date it denotes. -/
theorem time_Parse_of_strictDate (s : String) (y m d : Nat) (h : strictDate s = some (y, m, d)) :
    time_Parse s = .ok (time_Date (y : Int) m (d : Int) UTC)
      ∧ 1 ≤ m ∧ m ≤ 12 ∧ 1 ≤ d ∧ d ≤ daysInMonth y m := by
  obtain ⟨y1, y2, y3, y4, m1, m2, d1, d2, hs, hy1, hy2, hy3, hy4, hm1, hm2, hd1, hd2,
    rfl, rfl, rfl, hr1, hr2, hr3, hr4⟩ := strictDate_shape s y m d h
  exact ⟨time_Parse_shape s y1 y2 y3 y4 m1 m2 d1 d2 hs hy1 hy2 hy3 hy4 hm1 hm2 hd1 hd2
    ⟨hr1, hr2⟩ ⟨hr3, hr4⟩, hr1, hr2, hr3, hr4⟩

/-- `time.Parse` accepts exactly the texts that are strict dates. -/
theorem time_Parse_ok_iff (s : String) :
    (∃ t, time_Parse s = .ok t) ↔ (∃ ymd, strictDate s = some ymd) := by
  constructor
  · rintro ⟨t, h⟩
    obtain ⟨y1, y2, y3, y4, m1, m2, d1, d2, hs, hy1, hy2, hy3, hy4, hm1, hm2, hd1, hd2,
      hm, hd⟩ := time_Parse_ok_shape s t h
    exact ⟨_, strictDate_of_shape s y1 y2 y3 y4 m1 m2 d1 d2 hs hy1 hy2 hy3 hy4 hm1 hm2 hd1 hd2
      hm hd⟩
  · rintro ⟨⟨y, m, d⟩, h⟩
    exact ⟨_, (time_Parse_of_strictDate s y m d h).1⟩

/-- The day of the month of a parsed date is the day the text denotes. -/
theorem Day_of_time_Parse (s : String) (t : Time) (y m d : Nat) (h : time_Parse s = .ok t)
    (hs : strictDate s = some (y, m, d)) : t.Day = (d : Int) ∧ 1 ≤ d ∧ d ≤ 31 := by
  obtain ⟨hp, hm1, hm, hd1, hd⟩ := time_Parse_of_strictDate s y m d hs
  rw [hp] at h
  simp only [Except.ok.injEq] at h
  subst h
  have hdi := daysIn_eq y m hm1 hm
  refine ⟨Day_time_Date y m d hm1 hm hd1 (by rw [hdi]; exact_mod_cast hd), hd1, ?_⟩
  have := (daysBefore_diff_le m hm1 hm).1
  have h29 : daysIn m (y : Int) ≤ 31 := by
    unfold daysIn
    split <;> omega
  rw [hdi] at h29
  have : (d : Int) ≤ 31 := le_trans (by exact_mod_cast hd) h29
  omega


/-! ## Accepted records -/

/-- What is known of a record whose iteration reaches the append of line 167. -/
theorem postJsonUser_ok (env : Env) (w : ResponseWriter) (u : User) (info : UserInfo)
    (h : postJsonUser env w u = .ok info) :
    0 < u.User_Id ∧ u.Name ≠ "" ∧ (∃ t, time_Parse u.Date_Of_Birth = .ok t)
      ∧ ((time_Unix env.Local u.Created_On).Before (time_Unix env.Local 0)
          || (time_Unix env.Local u.Created_On).Equal (time_Unix env.Local 0)) = false
      ∧ ∃ loc, env.LoadLocation "EST" = .ok loc ∧ info = acceptedInfo env loc u := by
  unfold postJsonUser at h
  split at h
  · simp at h
  · rename_i h1
    split at h
    · simp at h
    · rename_i h2
      split at h
      · simp at h
      · rename_i t ht
        simp only at h
        split at h
        · simp at h
        · rename_i h4
          split at h
          · simp at h
          · rename_i loc hloc
            simp only [Except.ok.injEq] at h
            refine ⟨by omega, h2, ⟨t, ht⟩, by simpa using h4, loc, hloc, ?_⟩
            rw [← h]
            simp [acceptedInfo, ht]

/-- An accepted `int64` value of `Created_On` is positive and `time.Unix` did not wrap on it. -/
theorem createdOn_accepted (l : Location) (c : Int) (h1 : -9223372036854775808 ≤ c)
    (h2 : c < 9223372036854775808)
    (h : ((time_Unix l c).Before (time_Unix l 0) || (time_Unix l c).Equal (time_Unix l 0)) = false) :
    0 < c ∧ createdOnInRange c := by
  have e0 : wrapInt64 (0 + unixToInternal) = 0 + unixToInternal := by
    apply wrapInt64_of_range <;> rw [unixToInternal_eq] <;> omega
  by_cases hc : c ≤ 9223371974719179007
  · have hr : createdOnInRange c := ⟨h1, hc⟩
    rw [createdOn_check l c hr] at h
    simp at h
    exact ⟨h, hr⟩
  · exfalso
    simp only [time_Unix, Time.Before, Time.Equal, e0, Bool.or_eq_false_iff,
      decide_eq_false_iff_not] at h
    rw [unixToInternal_eq] at h
    have : wrapInt64 (c + 62135596800) < 0 := by
      unfold wrapInt64
      norm_num
      omega
    omega

/-- Accepted records in front of the others are appended to the slice and the loop goes on. -/
theorem postJsonLoop_accepted (env : Env) (w : ResponseWriter) (pre rest : List User)
    (acc : Option (List UserInfo))
    (h : ∀ p ∈ pre, ∃ info, postJsonUser env w p = .ok info) :
    ∃ acc2, postJsonLoop env w (pre ++ rest) acc = postJsonLoop env w rest acc2 := by
  induction pre generalizing acc with
  | nil => exact ⟨acc, rfl⟩
  | cons p ps ih =>
    obtain ⟨info, hp⟩ := h p (List.mem_cons_self p ps)
    obtain ⟨acc2, h2⟩ := ih (goAppend acc info) (fun q hq => h q (List.mem_cons_of_mem p hq))
    exact ⟨acc2, by rw [List.cons_append, postJsonLoop_cons, hp]; exact h2⟩

/-- The first record that is not accepted decides the response. -/
theorem postJson_first_rejected (env : Env) (request : Request) (body : String)
    (pre post : List User) (u : User) (r : ResponseWriter)
    (hm : request.Method = "POST") (hb : request.Body = .ok body)
    (hu : env.jsonUnmarshal body = .ok (pre ++ u :: post))
    (hpre : ∀ p ∈ pre, ∃ info, postJsonUser env NewRecorder p = .ok info)
    (hr : postJsonUser env NewRecorder u = .error r) :
    postJson env NewRecorder request = r := by
  unfold postJson
  simp only [hm, hb, hu, ne_eq, not_true_eq_false, if_false]
  obtain ⟨acc2, h2⟩ := postJsonLoop_accepted env NewRecorder pre (u :: post) none hpre
  rw [h2, postJsonLoop_cons, hr]


/-! ## Claims about the method gate and the JPEG decoder -/

theorem badRequest_method (msg : String) :
    "400 Bad Request\n" ++ ("Expected POST request method, instead received " ++ msg)
      = "400 Bad Request\nExpected POST request method, instead received " ++ msg := by
  rw [← String.append_assoc]
  rfl

/-- Claim C7. A request whose method is not `POST` is answered by both handlers with status
400 and the body `400 Bad Request`, newline, `Expected POST request method, instead received `
followed by the method; the answer depends neither on the request body nor on any
collaborator, so the body is not read or processed. -/
theorem non_post_method_rejected (env : Env) (request : Request)
    (h : request.Method ≠ "POST") :
    (postJson env NewRecorder request).Code = 400
      ∧ (postJson env NewRecorder request).Body
        = "400 Bad Request\nExpected POST request method, instead received " ++ request.Method
      ∧ (postJpegToPng env NewRecorder request).Code = 400
      ∧ (postJpegToPng env NewRecorder request).Body
        = "400 Bad Request\nExpected POST request method, instead received " ++ request.Method
      ∧ ∀ (env2 : Env) (body2 : Except String String),
          postJson env2 NewRecorder { Method := request.Method, Body := body2 }
            = postJson env NewRecorder request
          ∧ postJpegToPng env2 NewRecorder { Method := request.Method, Body := body2 }
            = postJpegToPng env NewRecorder request := by
  have hj : postJson env NewRecorder request = badRequest NewRecorder
      ("Expected POST request method, instead received " ++ request.Method) := by
    simp [postJson, h]
  have hp : postJpegToPng env NewRecorder request = badRequest NewRecorder
      ("Expected POST request method, instead received " ++ request.Method) := by
    simp [postJpegToPng, h]
  refine ⟨?_, ?_, ?_, ?_, ?_⟩
  · rw [hj, badRequest_NewRecorder]
  · rw [hj, badRequest_NewRecorder, badRequest_method]
  · rw [hp, badRequest_NewRecorder]
  · rw [hp, badRequest_NewRecorder, badRequest_method]
  · intro env2 body2
    rw [hj, hp]
    constructor
    · simp [postJson, h]
    · simp [postJpegToPng, h]

/-- Witness of C7: a `GET` request with an unreadable body, the scenario of
`TestPostJsonIncorrectMethod`. -/
theorem non_post_method_rejected_witness :
    "GET" ≠ "POST"
      ∧ (postJson (envWith []) NewRecorder { Method := "GET", Body := .error "Body read error" }).Body
        = "400 Bad Request\nExpected POST request method, instead received GET" :=
  ⟨by decide,
    (non_post_method_rejected (envWith [])
      { Method := "GET", Body := .error "Body read error" } (by decide)).2.1⟩

/-- Claim C10. When the JPEG decoder rejects the body of a POST request, `postJpegToPng`
answers with status 400 and the body `400 Bad Request`, newline, and the decoder's
diagnostic; the answer carries no PNG data and is the same whatever the resize filter and
the PNG encoder are, which are not reached. -/
theorem jpeg_decode_error_rejected (env : Env) (request : Request) (body diag : String)
    (hm : request.Method = "POST") (hb : request.Body = .ok body)
    (hd : env.jpegDecode body = .error diag) :
    (postJpegToPng env NewRecorder request).Code = 400
      ∧ (postJpegToPng env NewRecorder request).Body = "400 Bad Request\n" ++ diag
      ∧ (postJpegToPng env NewRecorder request).HeaderMap = [("Content-Type", "text/plain")]
      ∧ ∀ env2 : Env, env2.jpegDecode body = .error diag →
          postJpegToPng env2 NewRecorder request = postJpegToPng env NewRecorder request := by
  have hp : ∀ e : Env, e.jpegDecode body = .error diag →
      postJpegToPng e NewRecorder request = badRequest NewRecorder diag := by
    intro e he
    simp [postJpegToPng, hm, hb, he]
  rw [hp env hd, badRequest_NewRecorder]
  exact ⟨rfl, rfl, rfl, fun env2 h2 => hp env2 h2⟩

/-- Witness of C10: a JSON text posted as an image, the scenario of
`TestPostJpegToPngIncorrectFileType`. -/
theorem jpeg_decode_error_rejected_witness :
    (postJpegToPng (envWith [joe]) NewRecorder (postOf [joe])).Body
      = "400 Bad Request\n" ++ "invalid JPEG format: missing SOI marker" :=
  (jpeg_decode_error_rejected (envWith [joe]) (postOf [joe]) (usersJson [joe])
    "invalid JPEG format: missing SOI marker" rfl rfl rfl).2.1

/-! ## Claims about the response body of a successful `/json` request -/

/-- Claim C9, evaluated on the empty array. On a POST body that parses into the empty
array the loop appends nothing, the slice `usersInfo` is still nil, and the response is
status 200 with the body `null`, not `[]`. -/
theorem empty_array_body_is_null (env : Env) (request : Request) (body : String)
    (hm : request.Method = "POST") (hb : request.Body = .ok body)
    (hu : env.jsonUnmarshal body = .ok []) :
    (postJson env NewRecorder request).Code = 200
      ∧ (postJson env NewRecorder request).Body = "null"
      ∧ (postJson env NewRecorder request).Body ≠ "[]" := by
  have h : postJson env NewRecorder request = postJsonLoop env NewRecorder [] none := by
    simp [postJson, hm, hb, hu]
  rw [h, postJsonLoop_nil]
  exact ⟨rfl, rfl, by decide⟩

/-- Witness of C9's evaluation: the request body `[]`. -/
theorem empty_array_body_is_null_witness :
    usersJson [] = "[]" ∧ (postJson (envWith []) NewRecorder (postOf [])).Body = "null" :=
  ⟨by decide, (empty_array_body_is_null (envWith []) (postOf []) (usersJson [])
    rfl rfl rfl).2.1⟩

/-- The part of C9 that holds: when at least one record is sent and all are accepted, the
body is a JSON array with one element per record, in order. -/
theorem nonempty_success_body (env : Env) (request : Request) (body : String)
    (users : List User) (loc : Location) (hm : request.Method = "POST")
    (hb : request.Body = .ok body) (hu : env.jsonUnmarshal body = .ok users)
    (hloc : env.LoadLocation "EST" = .ok loc) (hne : users ≠ [])
    (hr : ∀ u ∈ users, createdOnInRange u.Created_On ∧ userCheck u = none) :
    (postJson env NewRecorder request).Code = 200
      ∧ (postJson env NewRecorder request).Body
        = "[" ++ ",".intercalate ((users.map (acceptedInfo env loc)).map marshalUserInfo) ++ "]" := by
  have hf : firstFailure users = none :=
    List.findSome?_eq_none_iff.mpr (fun u hu => (hr u hu).2)
  rw [postJson_eq env request body users loc hm hb hu hloc (fun u hu => (hr u hu).1), hf]
  cases users with
  | nil => exact absurd rfl hne
  | cons u us =>
    simp only [List.isEmpty_cons, Bool.false_eq_true, if_false]
    rw [postJsonLoop_nil]
    exact ⟨rfl, rfl⟩

/-! ## Claims about the validation of the records -/

theorem createdOn_body :
    "400 Bad Request\n" ++ createdOnErr =
      "400 Bad Request\nExpected JSON key created_on not set or set to invalid value; created_on must be set to a valid greater than 0" := by
  decide

theorem userId_body :
    "400 Bad Request\n" ++ userIdErr =
      "400 Bad Request\nExpected JSON key user_id not set or set to invalid value; user_id must be set to a value greater than 0" := by
  decide

/-- Counterexample to C1 as stated. First, without time-zone database the record of the
first example scenario fails none of the four checks and yet the answer is 400. Second, on
the largest `int64` the sum computed by `time.Unix` wraps around, and a record whose
`Created_On` is positive is rejected with the `created_on` message. -/
theorem first_failing_check_counterexample :
    (userCheck joe = none
      ∧ (postJson (envNoZone [joe]) NewRecorder (postOf [joe])).Code = 400)
    ∧ ((0 : Int) < 9223372036854775807
      ∧ (postJson (envWith [joeAt 9223372036854775807]) NewRecorder
          (postOf [joeAt 9223372036854775807])).Body
        = "400 Bad Request\nExpected JSON key created_on not set or set to invalid value; created_on must be set to a valid greater than 0") := by
  decide

/-- Claim C1, amended. When the time-zone lookup succeeds and no `Created_On` exceeds
`2 ^ 63 - 1 - 62135596800` (the range on which `time.Unix` does not wrap), `postJson`
answers a parsed array with status 400 and the message of the first check that fails,
scanning the records in array order and the checks of a record in the order `User_Id <= 0`,
`Name == ""`, `Date_Of_Birth` not parseable, `Created_On <= 0`; it answers 200 if and only
if no check fails on any record; and a single record whose other fields are valid is
rejected with the `created_on` body exactly when `Created_On <= 0`. -/
theorem postJson_first_failing_check (env : Env) (request : Request) (body : String)
    (users : List User) (loc : Location) (hm : request.Method = "POST")
    (hb : request.Body = .ok body) (hu : env.jsonUnmarshal body = .ok users)
    (hloc : env.LoadLocation "EST" = .ok loc)
    (hr : ∀ u ∈ users, createdOnInRange u.Created_On) :
    (∀ msg, firstFailure users = some msg →
        (postJson env NewRecorder request).Code = 400
          ∧ (postJson env NewRecorder request).Body = "400 Bad Request\n" ++ msg)
      ∧ ((postJson env NewRecorder request).Code = 200 ↔ ∀ u ∈ users, userCheck u = none)
      ∧ (∀ u, users = [u] → 0 < u.User_Id → u.Name ≠ "" →
          (∃ ymd, strictDate u.Date_Of_Birth = some ymd) →
          (((postJson env NewRecorder request).Code = 400
            ∧ (postJson env NewRecorder request).Body
              = "400 Bad Request\nExpected JSON key created_on not set or set to invalid value; created_on must be set to a valid greater than 0")
            ↔ u.Created_On ≤ 0)) := by
  have heq := postJson_eq env request body users loc hm hb hu hloc hr
  have hsome : ∀ msg, firstFailure users = some msg →
      (postJson env NewRecorder request).Code = 400
        ∧ (postJson env NewRecorder request).Body = "400 Bad Request\n" ++ msg := by
    intro msg hf
    rw [heq, hf]
    show (badRequest NewRecorder msg).Code = 400 ∧ (badRequest NewRecorder msg).Body = _
    rw [badRequest_NewRecorder]
    exact ⟨rfl, rfl⟩
  have hnone : firstFailure users = none → (postJson env NewRecorder request).Code = 200 := by
    intro hf
    rw [heq, hf]
    show (postJsonLoop env NewRecorder [] _).Code = 200
    rw [postJsonLoop_nil]
  have hiff : (postJson env NewRecorder request).Code = 200 ↔ ∀ u ∈ users, userCheck u = none := by
    rw [← List.findSome?_eq_none_iff]
    constructor
    · intro hc
      cases hf : firstFailure users with
      | none => exact hf
      | some msg =>
        have := (hsome msg hf).1
        omega
    · exact hnone
  refine ⟨hsome, hiff, ?_⟩
  intro u hus h1 h2 h3
  obtain ⟨t, ht⟩ := (time_Parse_ok_iff u.Date_Of_Birth).mpr h3
  have hcheck : userCheck u = if u.Created_On ≤ 0 then some createdOnErr else none := by
    simp [userCheck, not_le.mpr h1, h2, ht]
  constructor
  · rintro ⟨hc, -⟩
    by_contra hpos
    have : ∀ v ∈ users, userCheck v = none := by
      intro v hv
      rw [hus] at hv
      rw [List.mem_singleton.mp hv, hcheck, if_neg hpos]
    have := hiff.mpr this
    omega
  · intro hle
    have hf : firstFailure users = some createdOnErr := by
      rw [hus]
      simp [firstFailure, List.findSome?_cons, hcheck, hle]
    have := hsome createdOnErr hf
    rw [createdOn_body] at this
    exact this

/-- Witness of the amended C1: the record of the first example scenario with `Created_On`
zero, in an environment whose time-zone lookup succeeds. -/
theorem postJson_first_failing_check_witness :
    (postJson (envWith [joeAt 0]) NewRecorder (postOf [joeAt 0])).Code = 400
      ∧ (postJson (envWith [joeAt 0]) NewRecorder (postOf [joeAt 0])).Body
        = "400 Bad Request\n" ++ createdOnErr :=
  (postJson_first_failing_check (envWith [joeAt 0]) (postOf [joeAt 0]) (usersJson [joeAt 0])
    [joeAt 0] tzdataEST rfl rfl rfl rfl (by decide)).1 createdOnErr (by decide)

/-- Counterexample to C2 as stated: the second record has `User_Id` zero, but the first
record, with an empty `Name`, is rejected before it, and the body is the `name` message. -/
theorem userId_anywhere_counterexample :
    (∃ u ∈ [noName, noField], u.User_Id ≤ 0)
      ∧ (postJson (envWith [noName, noField]) NewRecorder (postOf [noName, noField])).Body
        = "400 Bad Request\nExpected JSON key name not set or set to invalid value; name must be set to a valid string"
      ∧ (postJson (envWith [noName, noField]) NewRecorder (postOf [noName, noField])).Body
        ≠ "400 Bad Request\nExpected JSON key user_id not set or set to invalid value; user_id must be set to a value greater than 0" := by
  refine ⟨⟨noField, by simp, by decide⟩, by decide, by decide⟩

/-- Claim C2, amended. When a parsed array contains a record with `User_Id <= 0` and every
record before it is accepted, `postJson` fails the whole request with status 400 and the
`user_id` body, whatever the other fields of that record and whatever the records after it. -/
theorem userId_rejected_after_accepted (env : Env) (request : Request) (body : String)
    (pre post : List User) (u : User) (hm : request.Method = "POST")
    (hb : request.Body = .ok body) (hu : env.jsonUnmarshal body = .ok (pre ++ u :: post))
    (hpre : ∀ p ∈ pre, ∃ info, postJsonUser env NewRecorder p = .ok info)
    (hid : u.User_Id ≤ 0) :
    (postJson env NewRecorder request).Code = 400
      ∧ (postJson env NewRecorder request).Body
        = "400 Bad Request\nExpected JSON key user_id not set or set to invalid value; user_id must be set to a value greater than 0" := by
  have hr : postJsonUser env NewRecorder u = .error (badRequest NewRecorder userIdErr) := by
    simp [postJsonUser, hid]
  rw [postJson_first_rejected env request body pre post u _ hm hb hu hpre hr,
    badRequest_NewRecorder, userId_body]
  exact ⟨rfl, rfl⟩

/-- Witness of the amended C2: an accepted record, then a record with `User_Id` zero and
no other valid field, then a record with an empty name. -/
theorem userId_rejected_after_accepted_witness :
    (postJson (envWith [joe, noField, noName]) NewRecorder (postOf [joe, noField, noName])).Code
      = 400 :=
  (userId_rejected_after_accepted (envWith [joe, noField, noName])
    (postOf [joe, noField, noName]) (usersJson [joe, noField, noName]) [joe] [noName] noField
    rfl rfl rfl
    (fun p hp => ⟨acceptedInfo (envWith []) tzdataEST joe, by
      rw [List.mem_singleton.mp hp]; rfl⟩)
    (by decide)).1

/-- Counterexample to C3 as stated. First, two records that are valid in the sense of the
claim are answered with 400 when the time-zone lookup fails. Second, a valid record whose
`Created_On` is `2 ^ 63 - 62135596800`, on which `time.Unix` wraps around, is rejected. -/
theorem valid_users_counterexample :
    ((∀ u ∈ [joe, jane],
        0 < u.User_Id ∧ u.Name ≠ "" ∧ (strictDate u.Date_Of_Birth).isSome ∧ 0 < u.Created_On)
      ∧ (postJson (envNoZone [joe, jane]) NewRecorder (postOf [joe, jane])).Code = 400
      ∧ (postJson (envNoZone [joe, jane]) NewRecorder (postOf [joe, jane])).Body
        = "400 Bad Request\nunknown time zone EST")
    ∧ ((∀ u ∈ [joe, joeAt 9223371974719179008],
        0 < u.User_Id ∧ u.Name ≠ "" ∧ (strictDate u.Date_Of_Birth).isSome ∧ 0 < u.Created_On)
      ∧ (postJson (envWith [joe, joeAt 9223371974719179008]) NewRecorder
          (postOf [joe, joeAt 9223371974719179008])).Code = 400) := by
  decide

/-- Claim C3, amended. When the time-zone lookup succeeds and every record is valid
(`User_Id > 0`, non-empty `Name`, `Date_Of_Birth` a strict calendar date, `Created_On > 0`
and at most `2 ^ 63 - 1 - 62135596800`), `postJson` answers 200 with the encoding of a
`UserInfo` slice of the same length whose elements carry, in order, the `User_Id` and
`Name` of the input records. -/
theorem postJson_valid_users (env : Env) (request : Request) (body : String)
    (users : List User) (loc : Location) (hm : request.Method = "POST")
    (hb : request.Body = .ok body) (hu : env.jsonUnmarshal body = .ok users)
    (hloc : env.LoadLocation "EST" = .ok loc)
    (hv : ∀ u ∈ users, 0 < u.User_Id ∧ u.Name ≠ "" ∧ (∃ ymd, strictDate u.Date_Of_Birth = some ymd)
      ∧ 0 < u.Created_On ∧ u.Created_On ≤ 9223371974719179007) :
    ∃ usersInfo : Option (List UserInfo),
      (usersInfo.getD []).length = users.length
        ∧ (usersInfo.getD []).map (fun i => (i.User_Id, i.Name))
          = users.map (fun u => (u.User_Id, u.Name))
        ∧ (postJson env NewRecorder request).Code = 200
        ∧ json_Marshal usersInfo = .ok (postJson env NewRecorder request).Body := by
  have hr : ∀ u ∈ users, createdOnInRange u.Created_On := by
    intro u hu
    obtain ⟨-, -, -, h4, h5⟩ := hv u hu
    exact ⟨by omega, h5⟩
  have hf : firstFailure users = none := by
    apply List.findSome?_eq_none_iff.mpr
    intro u hu
    obtain ⟨h1, h2, h3, h4, -⟩ := hv u hu
    obtain ⟨t, ht⟩ := (time_Parse_ok_iff u.Date_Of_Birth).mpr h3
    simp [userCheck, not_le.mpr h1, h2, ht, not_le.mpr h4]
  have heq := postJson_eq env request body users loc hm hb hu hloc hr
  rw [hf] at heq
  refine ⟨if users.isEmpty then none else some (users.map (acceptedInfo env loc)), ?_, ?_, ?_, ?_⟩
  · cases users <;> simp
  · cases users <;> simp [acceptedInfo]
  · rw [heq, postJsonLoop_nil]
  · rw [heq, postJsonLoop_nil]
    cases users <;> simp [json_Marshal]

/-- Witness of the amended C3: the record of the first example scenario and a second
valid record. -/
theorem postJson_valid_users_witness :
    ∃ usersInfo : Option (List UserInfo),
      (usersInfo.getD []).length = [joe, jane].length
        ∧ (usersInfo.getD []).map (fun i => (i.User_Id, i.Name))
          = [joe, jane].map (fun u => (u.User_Id, u.Name))
        ∧ (postJson (envWith [joe, jane]) NewRecorder (postOf [joe, jane])).Code = 200
        ∧ json_Marshal usersInfo
          = .ok (postJson (envWith [joe, jane]) NewRecorder (postOf [joe, jane])).Body :=
  postJson_valid_users (envWith [joe, jane]) (postOf [joe, jane]) (usersJson [joe, jane])
    [joe, jane] tzdataEST rfl rfl rfl rfl
    (by
      intro u hu
      simp only [List.mem_cons, List.mem_singleton, List.not_mem_nil, or_false] at hu
      rcases hu with rfl | rfl
      · exact ⟨by decide, by decide, ⟨(2022, 1, 19), by decide⟩, by decide, by decide⟩
      · exact ⟨by decide, by decide, ⟨(1990, 8, 6), by decide⟩, by decide, by decide⟩)

/-! ## Claims about the date of birth -/

/-- Claim C6. For every accepted record the `Birth_Day_Of_Week` of the output is the day of
the month of `Date_Of_Birth`: the text has the shape `YYYY-MM-DD` and the value is the
number written by the two digits `DD`, between 1 and 31. -/
theorem birth_day_is_day_of_month (env : Env) (w : ResponseWriter) (u : User) (info : UserInfo)
    (h : postJsonUser env w u = .ok info) :
    ∃ y1 y2 y3 y4 m1 m2 d1 d2 : Char,
      u.Date_Of_Birth.data = [y1, y2, y3, y4, Char.ofNat 45, m1, m2, Char.ofNat 45, d1, d2]
        ∧ isDigitChar d1 = true ∧ isDigitChar d2 = true
        ∧ info.Birth_Day_Of_Week = ((10 * digitVal d1 + digitVal d2 : Nat) : Int)
        ∧ 1 ≤ info.Birth_Day_Of_Week ∧ info.Birth_Day_Of_Week ≤ 31 := by
  obtain ⟨-, -, ⟨t, ht⟩, -, loc, -, hinfo⟩ := postJsonUser_ok env w u info h
  obtain ⟨⟨y, m, d⟩, hs⟩ := (time_Parse_ok_iff u.Date_Of_Birth).mp ⟨t, ht⟩
  obtain ⟨y1, y2, y3, y4, m1, m2, d1, d2, hdata, -, -, -, -, -, -, hd1, hd2, -, -, hd, -⟩ :=
    strictDate_shape u.Date_Of_Birth y m d hs
  obtain ⟨hday, hlo, hhi⟩ := Day_of_time_Parse u.Date_Of_Birth t y m d ht hs
  have hb : info.Birth_Day_Of_Week = (d : Int) := by
    rw [hinfo]
    simp [acceptedInfo, ht, hday]
  refine ⟨y1, y2, y3, y4, m1, m2, d1, d2, hdata, hd1, hd2, ?_, ?_, ?_⟩
  · rw [hb, hd]
  · rw [hb]; exact_mod_cast hlo
  · rw [hb]; exact_mod_cast hhi

/-- Witness of C6: the record of the first example scenario, whose `Date_Of_Birth`
`2022-01-19` gives 19. -/
theorem birth_day_is_day_of_month_witness :
    (acceptedInfo (envWith [joe]) tzdataEST joe).Birth_Day_Of_Week = 19
      ∧ ∃ y1 y2 y3 y4 m1 m2 d1 d2 : Char,
        joe.Date_Of_Birth.data = [y1, y2, y3, y4, Char.ofNat 45, m1, m2, Char.ofNat 45, d1, d2]
          ∧ isDigitChar d1 = true ∧ isDigitChar d2 = true
          ∧ (acceptedInfo (envWith [joe]) tzdataEST joe).Birth_Day_Of_Week
            = ((10 * digitVal d1 + digitVal d2 : Nat) : Int)
          ∧ 1 ≤ (acceptedInfo (envWith [joe]) tzdataEST joe).Birth_Day_Of_Week
          ∧ (acceptedInfo (envWith [joe]) tzdataEST joe).Birth_Day_Of_Week ≤ 31 :=
  ⟨by decide, birth_day_is_day_of_month (envWith [joe]) NewRecorder joe
    (acceptedInfo (envWith [joe]) tzdataEST joe) rfl⟩

theorem ParseError_Error_quotes (e : ParseError) :
    ∃ tail, e.Error = "parsing time " ++ quote e.Value ++ tail := by
  unfold ParseError.Error
  split
  · exact ⟨" as " ++ (quote e.Layout ++ (": cannot parse " ++ (quote e.ValueElem
      ++ (" as " ++ quote e.LayoutElem)))), by simp only [String.append_assoc]⟩
  · exact ⟨e.Message, rfl⟩

/-- Claim C8. For a record that passes the `User_Id` and `Name` checks, `time.Parse`
accepts `Date_Of_Birth` if and only if the text is exactly a four-digit year, a hyphen, a
two-digit month, a hyphen and a two-digit day that denote an existing calendar date, with
nothing before or after; otherwise the request fails with status 400 and the body
`400 Bad Request`, newline, and the parser's diagnostic, which starts with `parsing time `
and the quoted value; for the empty text the body is the one of
`TestPostJsonDateOfBirthTimeParseError`. Earlier records of the array are accepted ones. -/
theorem date_of_birth_strict (env : Env) (request : Request) (body : String)
    (pre post : List User) (u : User) (hm : request.Method = "POST")
    (hb : request.Body = .ok body) (hu : env.jsonUnmarshal body = .ok (pre ++ u :: post))
    (hpre : ∀ p ∈ pre, ∃ info, postJsonUser env NewRecorder p = .ok info)
    (hid : 0 < u.User_Id) (hname : u.Name ≠ "") :
    ((∃ t, time_Parse u.Date_Of_Birth = .ok t) ↔ ∃ ymd, strictDate u.Date_Of_Birth = some ymd)
      ∧ (strictDate u.Date_Of_Birth = none →
          ∃ e tail, time_Parse u.Date_Of_Birth = .error e
            ∧ e.Error = "parsing time " ++ quote u.Date_Of_Birth ++ tail
            ∧ (postJson env NewRecorder request).Code = 400
            ∧ (postJson env NewRecorder request).Body = "400 Bad Request\n" ++ e.Error)
      ∧ (u.Date_Of_Birth = "" →
          (postJson env NewRecorder request).Body
            = "400 Bad Request\nparsing time \"\" as \"2006-01-02\": cannot parse \"\" as \"2006\"") := by
  have hiff := time_Parse_ok_iff u.Date_Of_Birth
  have herr : ∀ e, time_Parse u.Date_Of_Birth = .error e →
      postJson env NewRecorder request = badRequest NewRecorder e.Error := by
    intro e he
    apply postJson_first_rejected env request body pre post u _ hm hb hu hpre
    simp [postJsonUser, not_le.mpr hid, hname, he]
  refine ⟨hiff, ?_, ?_⟩
  · intro hs
    cases hp : time_Parse u.Date_Of_Birth with
    | ok t =>
      obtain ⟨ymd, h2⟩ := hiff.mp ⟨t, hp⟩
      rw [hs] at h2
      cases h2
    | error e =>
      obtain ⟨tail, ht⟩ := ParseError_Error_quotes e
      rw [(time_Parse_error_value _ e hp).1] at ht
      refine ⟨e, tail, rfl, ht, ?_, ?_⟩
      · rw [herr e hp, badRequest_NewRecorder]
      · rw [herr e hp, badRequest_NewRecorder]
  · intro hempty
    have hp : time_Parse u.Date_Of_Birth
        = .error (ParseError.mk "2006-01-02" "" "2006" "" "") := by
      rw [hempty]; rfl
    rw [herr _ hp, badRequest_NewRecorder]
    decide

/-- Witness of C8: a record with an empty `Date_Of_Birth` after an accepted record. -/
theorem date_of_birth_strict_witness :
    (postJson (envWith [joe, noDate]) NewRecorder (postOf [joe, noDate])).Body
      = "400 Bad Request\nparsing time \"\" as \"2006-01-02\": cannot parse \"\" as \"2006\"" :=
  (date_of_birth_strict (envWith [joe, noDate]) (postOf [joe, noDate]) (usersJson [joe, noDate])
    [joe] [] noDate rfl rfl rfl
    (fun p hp => ⟨acceptedInfo (envWith []) tzdataEST joe, by
      rw [List.mem_singleton.mp hp]; rfl⟩)
    (by decide) (by decide)).2.2 rfl

/-! ## The target dimensions -/

/-- The exponent found for a quotient below one is at least 53. -/
theorem f64Exp_ge (fuel a b e : Nat) (hab : a < b) (hfe : 53 ≤ fuel + e) :
    53 ≤ f64Exp fuel a b e := by
  induction fuel generalizing e with
  | zero => simpa [f64Exp] using hfe
  | succ n ih =>
    unfold f64Exp
    split
    · rename_i h
      by_contra hlt
      have he : e ≤ 52 := by omega
      have h1 : 2 ^ e ≤ 2 ^ 52 := Nat.pow_le_pow_right (by norm_num) he
      have h2 : a * 2 ^ e ≤ a * 2 ^ 52 := Nat.mul_le_mul_left a h1
      have h3 : a * 2 ^ 52 < b * 2 ^ 52 := Nat.mul_lt_mul_of_pos_right hab (by positivity)
      have h4 : 2 ^ 52 * b = b * 2 ^ 52 := Nat.mul_comm _ _
      omega
    · exact ih (e + 1) (by omega)

/-- Rounding `a * 256 * P / b` to a neighbouring integer stays below the next multiple of
`P` when `b < 2 * P`. -/
theorem round_div_scale (a b P m : Nat) (hb0 : 0 < b) (hbP : b < 2 * P)
    (hm : m = a * (256 * P) / b ∨ (m = a * (256 * P) / b + 1 ∧ b ≤ 2 * (a * (256 * P) % b))) :
    m / P = 256 * a / b := by
  have hP0 : 0 < P := by omega
  have hk := Nat.div_add_mod (256 * a) b
  have hs := Nat.mod_lt (256 * a) hb0
  generalize 256 * a / b = k at hk ⊢
  generalize 256 * a % b = s at hk hs
  have ht := Nat.div_add_mod (P * s) b
  have hr := Nat.mod_lt (P * s) hb0
  generalize hte : P * s / b = t at ht
  generalize P * s % b = r at ht hr
  have hN : a * (256 * P) = r + b * (P * k + t) := by
    have : a * (256 * P) = P * (256 * a) := by ring
    rw [this, ← hk]
    have : P * (b * k + s) = b * (P * k) + P * s := by ring
    rw [this, ← ht]
    ring
  have hq : a * (256 * P) / b = P * k + t := by
    rw [hN, Nat.add_mul_div_left _ _ hb0, Nat.div_eq_of_lt hr]
    simp
  have hrem : a * (256 * P) % b = r := by
    rw [hN, Nat.add_mul_mod_self_left, Nat.mod_eq_of_lt hr]
  rw [hq, hrem] at hm
  have hPs : P * s + P ≤ P * b := by
    have : P * (s + 1) ≤ P * b := Nat.mul_le_mul_left P (by omega)
    rw [Nat.mul_add, Nat.mul_one] at this
    exact this
  have htP : t < P := by
    by_contra hge
    have h1 : b * P ≤ b * t := Nat.mul_le_mul_left b (by omega)
    have h2 : P * b = b * P := Nat.mul_comm _ _
    omega
  apply Nat.div_eq_of_lt_le
  · rcases hm with hm | ⟨hm, -⟩ <;> rw [hm, Nat.mul_comm k P] <;> omega
  · rw [Nat.succ_mul, Nat.mul_comm k P]
    rcases hm with hm | ⟨hm, h2r⟩
    · rw [hm]; omega
    · rw [hm]
      by_contra hge
      have htP1 : t + 1 = P := by omega
      have h1 : b * t + b = b * P := by rw [← htP1]; ring
      have h2 : P * b = b * P := Nat.mul_comm _ _
      omega

/-- Truncating `256` times the nearest float64 to `a / b` gives the floor of `256 * a / b`:
the rounding of the quotient never reaches the next multiple of `1 / 256`. -/
theorem scale_floor (a b : Nat) (hab : a < b) (hb : b < 2 ^ 46) :
    (F64.div a b).mul256.toInt = 256 * a / b := by
  have hb0 : 0 < b := by omega
  have he := f64Exp_ge 1074 a b 0 hab (by norm_num)
  simp only [F64.div, F64.mul256, F64.toInt]
  generalize f64Exp 1074 a b 0 = e at he ⊢
  have h45 : 45 ≤ e - 8 := by omega
  have he8 : e = 8 + (e - 8) := by omega
  obtain ⟨P, hP⟩ : ∃ P, P = 2 ^ (e - 8) := ⟨_, rfl⟩
  have hPe : 2 ^ e = 256 * P := by
    rw [hP, show (256 : Nat) = 2 ^ 8 by norm_num, ← Nat.pow_add, ← he8]
  have hbP : b < 2 * P := by
    have : 2 ^ 45 ≤ 2 ^ (e - 8) := Nat.pow_le_pow_right (by norm_num) h45
    rw [← hP] at this
    clear hP hPe
    omega
  rw [hPe, Nat.mul_div_mul_left _ _ (by norm_num : 0 < 256)]
  apply round_div_scale a b P _ hb0 hbP
  split
  · exact Or.inl rfl
  · rename_i h1
    split
    · exact Or.inr ⟨rfl, by omega⟩
    · split
      · exact Or.inl rfl
      · exact Or.inr ⟨rfl, by omega⟩


/-- Counterexample to C4 as stated: for a 2 by 3 image the target width is 170, the
truncation of 170.66, while rounding gives 171. -/
theorem target_rounding_counterexample :
    targetDimensions 2 3 = (170, 256) ∧ specTarget 2 3 = (171, 256)
      ∧ targetDimensions 2 3 ≠ specTarget 2 3 := by
  decide

/-- Claim C4, amended. For a decoded image of width `w` and height `h` below `2 ^ 46` (a
JPEG has at most 65535 pixels per axis): if `h > w` the target is
`(floor (256 * w / h), 256)`; if `w > h` it is `(256, floor (256 * h / w))`; if `w = h` it
is `(256, 256)`. So for `w ≠ h` exactly one target axis equals 256 and the other equals
`floor (256 * min w h / max w h)`, which is below 256. -/
theorem targetDimensions_floor (w h : Nat) (hw : w < 2 ^ 46) (hh : h < 2 ^ 46) :
    targetDimensions w h
        = (if h > w then (256 * w / h, 256)
           else if w > h then (256, 256 * h / w) else (256, 256))
      ∧ (w ≠ h →
          (((targetDimensions w h).1 = 256 ∧ (targetDimensions w h).2 = 256 * min w h / max w h
              ∧ (targetDimensions w h).2 < 256)
            ∨ ((targetDimensions w h).2 = 256 ∧ (targetDimensions w h).1 = 256 * min w h / max w h
              ∧ (targetDimensions w h).1 < 256))) := by
  have hdim : targetDimensions w h
      = (if h > w then (256 * w / h, 256)
         else if w > h then (256, 256 * h / w) else (256, 256)) := by
    unfold targetDimensions
    by_cases h1 : h > w
    · simp only [h1, if_true, scale_floor w h h1 hh]
      rfl
    · by_cases h2 : w > h
      · simp only [h1, h2, if_true, if_false, scale_floor h w h2 hw]
        rfl
      · simp only [h1, h2, if_false]
        rfl
  refine ⟨hdim, ?_⟩
  intro hne
  rw [hdim]
  by_cases h1 : h > w
  · right
    simp only [h1, if_true]
    refine ⟨trivial, ?_, ?_⟩
    · rw [Nat.min_eq_left (by omega), Nat.max_eq_right (by omega)]
    · exact Nat.div_lt_of_lt_mul (by omega)
  · have h2 : w > h := by omega
    left
    simp only [h1, h2, if_true, if_false]
    refine ⟨trivial, ?_, ?_⟩
    · rw [Nat.min_eq_right (by omega), Nat.max_eq_left (by omega)]
    · exact Nat.div_lt_of_lt_mul (by omega)

/-- Witness of the amended C4: a 1920 by 1080 image is scaled to 256 by 144. -/
theorem targetDimensions_floor_witness :
    targetDimensions 1920 1080
      = (if 1080 > 1920 then (256 * 1920 / 1080, 256)
         else if 1920 > 1080 then (256, 256 * 1080 / 1920) else (256, 256)) :=
  (targetDimensions_floor 1920 1080 (by norm_num) (by norm_num)).1

/-! ## From an instant to the calendar -/

theorem daysSinceEpoch_of_parts (a b c e : Int) (hb0 : 0 ≤ b) (hb : b ≤ 3) (hc0 : 0 ≤ c)
    (hc : c ≤ 24) (he0 : 0 ≤ e) (he : e ≤ 3) :
    daysSinceEpoch (400 * a + 100 * b + 4 * c + e + 1)
      = 146097 * a + 36524 * b + 1461 * c + 365 * e := by
  have h0 : 400 * a + 100 * b + 4 * c + e + 1 - 1 = 400 * a + 100 * b + 4 * c + e := by ring
  have h1 : (400 * a + 100 * b + 4 * c + e) / 400 = a :=
    ediv_of_eq _ _ a (100 * b + 4 * c + e) (by norm_num) (by ring) (by omega) (by omega)
  have h2 : 400 * a + 100 * b + 4 * c + e - 400 * a = 100 * b + 4 * c + e := by ring
  have h3 : (100 * b + 4 * c + e) / 100 = b :=
    ediv_of_eq _ _ b (4 * c + e) (by norm_num) (by ring) (by omega) (by omega)
  have h4 : 100 * b + 4 * c + e - 100 * b = 4 * c + e := by ring
  have h5 : (4 * c + e) / 4 = c :=
    ediv_of_eq _ _ c e (by norm_num) (by ring) (by omega) (by omega)
  have h6 : 4 * c + e - 4 * c = e := by ring
  simp only [daysSinceEpoch, h0, h1, h2, h3, h4, h5, h6]

theorem isLeap_of_parts (a b c e : Int) (hb0 : 0 ≤ b) (hb : b ≤ 3) (hc0 : 0 ≤ c)
    (hc : c ≤ 24) (he0 : 0 ≤ e) (he : e ≤ 3) :
    isLeap (400 * a + 100 * b + 4 * c + e + 1) = true ↔ (e = 3 ∧ (c ≠ 24 ∨ b = 3)) := by
  rw [isLeap_iff]
  constructor
  · rintro ⟨h4, h100⟩
    have he3 : e = 3 := by omega
    refine ⟨he3, ?_⟩
    by_cases hc24 : c = 24
    · right
      rcases h100 with h | h
      · exfalso; apply h; omega
      · omega
    · exact Or.inl hc24
  · rintro ⟨he3, hcb⟩
    refine ⟨by omega, ?_⟩
    rcases hcb with h | h
    · left; omega
    · by_cases hc24 : c = 24
      · right; omega
      · left; omega

/-- Every day count splits along the 400-year cycle. -/
theorem parts_of_days (n : Int) :
    ∃ a b c e k : Int, 0 ≤ b ∧ b ≤ 3 ∧ 0 ≤ c ∧ c ≤ 24 ∧ 0 ≤ e ∧ e ≤ 3 ∧ 0 ≤ k
      ∧ (k < 365 ∨ (k = 365 ∧ e = 3 ∧ (c ≠ 24 ∨ b = 3)))
      ∧ n = 146097 * a + 36524 * b + 1461 * c + 365 * e + k := by
  obtain ⟨a, R, hn, hR0, hR⟩ : ∃ a R : Int, n = 146097 * a + R ∧ 0 ≤ R ∧ R < 146097 :=
    ⟨n / 146097, n % 146097, by omega, by omega, by omega⟩
  obtain ⟨b, R2, hR2, hb0, hb, hR20, hR2lt⟩ : ∃ b R2 : Int, R = 36524 * b + R2 ∧ 0 ≤ b ∧ b ≤ 3
      ∧ 0 ≤ R2 ∧ (R2 < 36524 ∨ (b = 3 ∧ R2 = 36524)) := by
    by_cases h : R = 146096
    · exact ⟨3, 36524, by omega, by omega, by omega, by omega, Or.inr ⟨rfl, rfl⟩⟩
    · exact ⟨R / 36524, R % 36524, by omega, by omega, by omega, by omega, Or.inl (by omega)⟩
  obtain ⟨c, R3, hR3, hc0, hc, hR30, hR3lt⟩ : ∃ c R3 : Int, R2 = 1461 * c + R3 ∧ 0 ≤ c ∧ c ≤ 24
      ∧ 0 ≤ R3 ∧ R3 < 1461 :=
    ⟨R2 / 1461, R2 % 1461, by omega, by omega, by omega, by omega, by omega⟩
  obtain ⟨e, k, hk, he0, he, hk0, hklt⟩ : ∃ e k : Int, R3 = 365 * e + k ∧ 0 ≤ e ∧ e ≤ 3
      ∧ 0 ≤ k ∧ (k < 365 ∨ (k = 365 ∧ e = 3)) := by
    by_cases h : R3 = 1460
    · exact ⟨3, 365, by omega, by omega, by omega, by omega, Or.inr ⟨rfl, rfl⟩⟩
    · exact ⟨R3 / 365, R3 % 365, by omega, by omega, by omega, by omega, Or.inl (by omega)⟩
  refine ⟨a, b, c, e, k, hb0, hb, hc0, hc, he0, he, hk0, ?_, by omega⟩
  rcases hklt with h | ⟨h1, h2⟩
  · exact Or.inl h
  · right
    refine ⟨h1, h2, ?_⟩
    by_cases hc24 : c = 24
    · right; omega
    · exact Or.inl hc24

/-- The year and day of the year found by `absDate` lead back to the day count. -/
theorem absDate_spec (n : Int) :
    daysSinceEpoch (absDate n).1 + (absDate n).2 = n ∧ 0 ≤ (absDate n).2
      ∧ (absDate n).2 < (if isLeap (absDate n).1 then 366 else 365) := by
  obtain ⟨a, b, c, e, k, hb0, hb, hc0, hc, he0, he, hk0, hk, hn⟩ := parts_of_days n
  rw [hn, absDate_of_parts a b c e k hb0 hb hc0 hc he0 he hk0 hk]
  simp only
  rw [daysSinceEpoch_of_parts a b c e hb0 hb hc0 hc he0 he]
  refine ⟨rfl, hk0, ?_⟩
  by_cases hl : isLeap (400 * a + 100 * b + 4 * c + e + 1) = true
  · rw [if_pos hl]
    omega
  · rw [if_neg hl]
    rw [isLeap_of_parts a b c e hb0 hb hc0 hc he0 he] at hl
    rcases hk with h | ⟨h1, h2, h3⟩
    · exact h
    · exact absurd ⟨h2, h3⟩ hl

theorem monthDayInvOk_all (leap : Bool) : monthDayInvOk leap = true := by
  cases leap <;> rfl

/-- The month and day found for a day of the year are a valid date that leads back to it. -/
theorem monthDay_spec (leap : Bool) (k : Int) (hk0 : 0 ≤ k)
    (hk : k < if leap then 366 else 365) :
    1 ≤ (monthDay leap k).1 ∧ (monthDay leap k).1 ≤ 12 ∧ 1 ≤ (monthDay leap k).2
      ∧ (monthDay leap k).2 ≤ (if (monthDay leap k).1 = 2 && leap then 29
          else daysBefore (monthDay leap k).1 - daysBefore ((monthDay leap k).1 - 1))
      ∧ daysBefore ((monthDay leap k).1 - 1)
          + (if leap && decide (3 ≤ (monthDay leap k).1) then 1 else 0)
          + ((monthDay leap k).2 - 1) = k := by
  obtain ⟨j, rfl⟩ : ∃ j : Nat, k = (j : Int) := ⟨k.toNat, by omega⟩
  have h := monthDayInvOk_all leap
  simp only [monthDayInvOk, List.all_eq_true, List.mem_range] at h
  have hj : j < 366 := by split at hk <;> omega
  have h2 := h j hj
  have hc : (leap || decide (j < 365)) = true := by
    cases leap
    · simp at hk ⊢; omega
    · simp
  simp only [hc, Bool.not_true, Bool.false_or, Bool.and_eq_true, decide_eq_true_eq] at h2
  obtain ⟨⟨⟨⟨h3, h4⟩, h5⟩, h6⟩, h7⟩ := h2
  exact ⟨h3, h4, h5, by simpa using h6, by simpa using h7⟩

/-- The date of a time is a valid calendar date whose midnight is the start of the day of
the time's wall clock. -/
theorem Date_spec (t : Time) :
    1 ≤ t.Date.2.1 ∧ t.Date.2.1 ≤ 12 ∧ 1 ≤ t.Date.2.2 ∧ t.Date.2.2 ≤ daysIn t.Date.2.1 t.Date.1
      ∧ (time_Date t.Date.1 t.Date.2.1 t.Date.2.2 UTC).ext = 86400 * (t.abs / 86400) := by
  obtain ⟨h1, h2, h3⟩ := absDate_spec (t.abs / 86400)
  obtain ⟨m1, m2, m3, m4, m5⟩ := monthDay_spec (isLeap (absDate (t.abs / 86400)).1)
    (absDate (t.abs / 86400)).2 h2 h3
  simp only [Time.Date]
  refine ⟨m1, m2, m3, ?_, ?_⟩
  · simpa [daysIn] using m4
  · simp only [time_Date]
    have : daysSinceEpoch (absDate (t.abs / 86400)).1
        + daysBefore ((monthDay (isLeap (absDate (t.abs / 86400)).1) (absDate (t.abs / 86400)).2).1 - 1)
        + (if isLeap (absDate (t.abs / 86400)).1
            && decide (3 ≤ (monthDay (isLeap (absDate (t.abs / 86400)).1) (absDate (t.abs / 86400)).2).1)
           then 1 else 0)
        + ((monthDay (isLeap (absDate (t.abs / 86400)).1) (absDate (t.abs / 86400)).2).2 - 1)
        = t.abs / 86400 := by omega
    split_ifs at this ⊢ <;> linarith


/-! ## Claim about the rendered timestamp -/

/-- The January example: at an offset of five hours west of UTC, the instant 1642608434 is
rendered with the wall-clock time 11:07:14 (the instant is 16:07:14 UTC), not 12:07:14. -/
theorem rfc_example_hour :
    (acceptedInfo (envWith [joe]) tzdataEST joe).Rfc_Created_On = "2022-01-19T11:07:14-05:00"
      ∧ (postJson (envWith [joe]) NewRecorder (postOf [joe])).Body
        = "[\x7b\"User_Id\":1,\"Name\":\"Joe Smith\",\"Birth_Day_Of_Week\":19,\"Rfc_Created_On\":\"2022-01-19T11:07:14-05:00\"\x7d]"
      ∧ (acceptedInfo (envWith [joe]) tzdataEST joe).Rfc_Created_On ≠ "2022-01-19T12:07:14-05:00" := by
  decide

/-- Claim C5, evaluated on an instant in July. The handler looks up the zone `EST`, which
in the time-zone database is five hours west of UTC all year. For `Created_On` 1657000000
(2022-07-05T05:46:40Z, in daylight time in the US Eastern zone) the record is accepted and
`Rfc_Created_On` is `2022-07-05T00:46:40-05:00`, not the Eastern daylight rendering
`2022-07-05T01:46:40-04:00`. -/
theorem july_rendering_keeps_standard_offset :
    tzdataEST.offsetAt 1657000000 = -18000
      ∧ (postJson (envWith [joeAt 1657000000]) NewRecorder (postOf [joeAt 1657000000])).Code = 200
      ∧ (postJson (envWith [joeAt 1657000000]) NewRecorder (postOf [joeAt 1657000000])).Body
        = "[\x7b\"User_Id\":1,\"Name\":\"Joe Smith\",\"Birth_Day_Of_Week\":19,\"Rfc_Created_On\":\"2022-07-05T00:46:40-05:00\"\x7d]"
      ∧ (acceptedInfo (envWith [joeAt 1657000000]) tzdataEST (joeAt 1657000000)).Rfc_Created_On
        = "2022-07-05T00:46:40-05:00"
      ∧ (acceptedInfo (envWith [joeAt 1657000000]) tzdataEST (joeAt 1657000000)).Rfc_Created_On
        ≠ "2022-07-05T01:46:40-04:00" := by
  decide

/-- The time rendered for an accepted record: the instant `Created_On` in the loaded zone. -/
theorem createdOn_time (l loc : Location) (c : Int) (hr : createdOnInRange c) :
    ((time_Unix l c).In loc).abs = c + unixToInternal + loc.offsetAt c
      ∧ wrapInt64 (((time_Unix l c).In loc).ext - unixToInternal) = c := by
  obtain ⟨h1, h2⟩ := hr
  have e1 : wrapInt64 (c + unixToInternal) = c + unixToInternal := by
    apply wrapInt64_of_range <;> rw [unixToInternal_eq] <;> omega
  have e2 : wrapInt64 (c + unixToInternal - unixToInternal) = c := by
    rw [add_sub_cancel_right]
    apply wrapInt64_of_range <;> omega
  simp only [Time.abs, Time.In, time_Unix, e1, e2, and_self]

/-- The rendering of the instant of an accepted record in whatever zone the lookup returns:
`Rfc_Created_On` consists of year, month, day, hour, minute and second, zero-padded, of a
valid calendar date and time of day that lie `Created_On` seconds plus the zone's offset
after the epoch, followed by that offset, `-05:00` when the zone is five hours west of UTC
at the instant and `-04:00` when it is four hours west. -/
theorem rfc_created_on_rendering (env : Env) (w : ResponseWriter) (u : User) (info : UserInfo)
    (loc : Location) (h : postJsonUser env w u = .ok info)
    (hloc : env.LoadLocation "EST" = .ok loc)
    (h1 : -9223372036854775808 ≤ u.Created_On) (h2 : u.Created_On < 9223372036854775808) :
    ∃ (year : Int) (month : Nat) (day hour minute second : Int),
      info.Rfc_Created_On
          = appendInt year 4 ++ "-" ++ appendInt month 2 ++ "-" ++ appendInt day 2 ++ "T"
            ++ appendInt hour 2 ++ ":" ++ appendInt minute 2 ++ ":" ++ appendInt second 2
            ++ formatZone (loc.offsetAt u.Created_On)
        ∧ 1 ≤ month ∧ month ≤ 12 ∧ 1 ≤ day ∧ day ≤ daysIn month year
        ∧ 0 ≤ hour ∧ hour < 24 ∧ 0 ≤ minute ∧ minute < 60 ∧ 0 ≤ second ∧ second < 60
        ∧ (time_Date year month day UTC).ext + 3600 * hour + 60 * minute + second
          = u.Created_On + unixToInternal + loc.offsetAt u.Created_On
        ∧ (loc.offsetAt u.Created_On = -18000 → formatZone (loc.offsetAt u.Created_On) = "-05:00")
        ∧ (loc.offsetAt u.Created_On = -14400 → formatZone (loc.offsetAt u.Created_On) = "-04:00") := by
  obtain ⟨-, -, -, hc, loc2, hloc2, hinfo⟩ := postJsonUser_ok env w u info h
  rw [hloc] at hloc2
  simp only [Except.ok.injEq] at hloc2
  subst hloc2
  obtain ⟨-, hr⟩ := createdOn_accepted env.Local u.Created_On h1 h2 hc
  obtain ⟨habs, hunix⟩ := createdOn_time env.Local loc u.Created_On hr
  obtain ⟨d1, d2, d3, d4, d5⟩ := Date_spec ((time_Unix env.Local u.Created_On).In loc)
  have hfmt : info.Rfc_Created_On = ((time_Unix env.Local u.Created_On).In loc).Format := by
    rw [hinfo]; rfl
  refine ⟨((time_Unix env.Local u.Created_On).In loc).Date.1,
    ((time_Unix env.Local u.Created_On).In loc).Date.2.1,
    ((time_Unix env.Local u.Created_On).In loc).Date.2.2,
    ((time_Unix env.Local u.Created_On).In loc).abs % 86400 / 3600,
    ((time_Unix env.Local u.Created_On).In loc).abs % 86400 % 3600 / 60,
    ((time_Unix env.Local u.Created_On).In loc).abs % 86400 % 60,
    ?_, d1, d2, d3, d4, by omega, by omega, by omega, by omega, by omega, by omega, ?_, ?_, ?_⟩
  · rw [hfmt]
    simp only [Time.Format, hunix]
    rfl
  · rw [d5, ← habs]
    omega
  · intro ho; rw [ho]; decide
  · intro ho; rw [ho]; decide

/-- The rendering at the record of the first example scenario in the zone of the
time-zone database: `2022-01-19T11:07:14-05:00`. -/
theorem rfc_created_on_rendering_example :
    (acceptedInfo (envWith [joe]) tzdataEST joe).Rfc_Created_On = "2022-01-19T11:07:14-05:00"
      ∧ ∃ (year : Int) (month : Nat) (day hour minute second : Int),
        (acceptedInfo (envWith [joe]) tzdataEST joe).Rfc_Created_On
          = appendInt year 4 ++ "-" ++ appendInt month 2 ++ "-" ++ appendInt day 2 ++ "T"
            ++ appendInt hour 2 ++ ":" ++ appendInt minute 2 ++ ":" ++ appendInt second 2
            ++ formatZone (tzdataEST.offsetAt joe.Created_On)
        ∧ 1 ≤ month ∧ month ≤ 12 ∧ 1 ≤ day ∧ day ≤ daysIn month year
        ∧ 0 ≤ hour ∧ hour < 24 ∧ 0 ≤ minute ∧ minute < 60 ∧ 0 ≤ second ∧ second < 60
        ∧ (time_Date year month day UTC).ext + 3600 * hour + 60 * minute + second
          = joe.Created_On + unixToInternal + tzdataEST.offsetAt joe.Created_On
        ∧ (tzdataEST.offsetAt joe.Created_On = -18000
            → formatZone (tzdataEST.offsetAt joe.Created_On) = "-05:00")
        ∧ (tzdataEST.offsetAt joe.Created_On = -14400
            → formatZone (tzdataEST.offsetAt joe.Created_On) = "-04:00") :=
  ⟨by decide, rfc_created_on_rendering (envWith [joe]) NewRecorder joe
    (acceptedInfo (envWith [joe]) tzdataEST joe) tzdataEST rfl rfl (by decide) (by decide)⟩

/-! ## Claims about the failures of the environment -/

theorem postJsonLoopWith_marshal (env : Env) (w : ResponseWriter) (users : List User)
    (acc : Option (List UserInfo)) :
    postJsonLoopWith json_Marshal env w users acc = postJsonLoop env w users acc := by
  induction users generalizing acc with
  | nil => rfl
  | cons u us ih =>
    rw [postJsonLoop_cons]
    simp only [postJsonLoopWith]
    cases postJsonUser env w u with
    | error r => rfl
    | ok info => exact ih _

/-- The handler `postJson` is `postJsonWith` at the encoder of the standard library. -/
theorem postJsonWith_marshal (env : Env) (w : ResponseWriter) (request : Request) :
    postJsonWith json_Marshal env w request = postJson env w request := by
  unfold postJsonWith postJson
  split
  · rfl
  · split
    · rfl
    · split
      · rfl
      · exact postJsonLoopWith_marshal env w _ none

/-- When every record is accepted the loop reaches the encoder with the accumulated slice. -/
theorem postJsonLoopWith_all_accepted
    (marshal : Option (List UserInfo) → Except String String) (env : Env) (w : ResponseWriter)
    (loc : Location) (hloc : env.LoadLocation "EST" = .ok loc) (users : List User)
    (acc : Option (List UserInfo))
    (hr : ∀ u ∈ users, createdOnInRange u.Created_On ∧ userCheck u = none) :
    postJsonLoopWith marshal env w users acc
      = postJsonLoopWith marshal env w [] ((users.map (acceptedInfo env loc)).foldl goAppend acc) := by
  induction users generalizing acc with
  | nil => rfl
  | cons u us ih =>
    have hu := postJsonUser_eq env w loc u hloc (hr u (List.mem_cons_self u us)).1
    rw [(hr u (List.mem_cons_self u us)).2] at hu
    simp only [postJsonLoopWith, hu, List.map_cons, List.foldl_cons]
    exact ih _ (fun v hv => hr v (List.mem_cons_of_mem u hv))

/-- The encoder of the standard library returns no error on a slice of `UserInfo`. -/
theorem json_Marshal_ok (usersInfo : Option (List UserInfo)) :
    ∃ data, json_Marshal usersInfo = .ok data := by
  cases usersInfo with
  | none => exact ⟨_, rfl⟩
  | some xs => exact ⟨_, rfl⟩

/-- Counterexample to C12 as stated: without time-zone database a record that passes the
four checks is answered with status 400, which is no status of the 500 class. -/
theorem environment_failure_counterexample :
    userCheck jane = none
      ∧ (envNoZone [jane]).LoadLocation "EST" = .error "unknown time zone EST"
      ∧ (postJson (envNoZone [jane]) NewRecorder (postOf [jane])).Code = 400
      ∧ ¬ (500 ≤ (postJson (envNoZone [jane]) NewRecorder (postOf [jane])).Code
          ∧ (postJson (envNoZone [jane]) NewRecorder (postOf [jane])).Code ≤ 599) := by
  refine ⟨by decide, rfl, by decide, by decide⟩

/-- Claim C12, amended. A POST request to `postJson` in which an environment operation
fails is answered with status 400 and the body `400 Bad Request`, newline, and the text of
the error, and the handler returns: first, when the first record passes the four checks and
the time-zone lookup returns an error; second, when every record is accepted and the
encoder, taken as a collaborator, returns an error on the accumulated slice. The encoder of
the standard library returns no error on such a slice, and with it the handler is `postJson`. -/
theorem environment_failure_answers_400 (env : Env) (request : Request) (body : String)
    (hm : request.Method = "POST") (hb : request.Body = .ok body) :
    (∀ (u : User) (rest : List User) (diag : String),
        env.jsonUnmarshal body = .ok (u :: rest) →
        0 < u.User_Id → u.Name ≠ "" → (∃ ymd, strictDate u.Date_Of_Birth = some ymd) →
        0 < u.Created_On → u.Created_On ≤ 9223371974719179007 →
        env.LoadLocation "EST" = .error diag →
        (postJson env NewRecorder request).Code = 400
          ∧ (postJson env NewRecorder request).Body = "400 Bad Request\n" ++ diag)
      ∧ (∀ (marshal : Option (List UserInfo) → Except String String) (users : List User)
          (loc : Location) (diag : String),
        env.jsonUnmarshal body = .ok users →
        env.LoadLocation "EST" = .ok loc →
        (∀ u ∈ users, createdOnInRange u.Created_On ∧ userCheck u = none) →
        marshal (if users.isEmpty then none else some (users.map (acceptedInfo env loc)))
          = .error diag →
        (postJsonWith marshal env NewRecorder request).Code = 400
          ∧ (postJsonWith marshal env NewRecorder request).Body = "400 Bad Request\n" ++ diag)
      ∧ (∀ usersInfo, ∃ data, json_Marshal usersInfo = .ok data)
      ∧ postJsonWith json_Marshal env NewRecorder request = postJson env NewRecorder request := by
  refine ⟨?_, ?_, json_Marshal_ok, postJsonWith_marshal env NewRecorder request⟩
  · intro u rest diag hu h1 h2 h3 h4 h5 hloc
    obtain ⟨t, ht⟩ := (time_Parse_ok_iff u.Date_Of_Birth).mpr h3
    have hc := createdOn_check env.Local u.Created_On ⟨by omega, h5⟩
    have hr : postJsonUser env NewRecorder u = .error (badRequest NewRecorder diag) := by
      unfold postJsonUser
      simp only [not_le.mpr h1, h2, ht, if_false]
      rw [hc]
      simp [not_le.mpr h4, hloc]
    rw [postJson_first_rejected env request body [] rest u _ hm hb hu (by simp) hr,
      badRequest_NewRecorder]
    exact ⟨rfl, rfl⟩
  · intro marshal users loc diag hu hloc hr hme
    have h : postJsonWith marshal env NewRecorder request
        = postJsonLoopWith marshal env NewRecorder users none := by
      simp [postJsonWith, hm, hb, hu]
    rw [h, postJsonLoopWith_all_accepted marshal env NewRecorder loc hloc users none hr,
      foldl_goAppend_none]
    have hs : (if (users.map (acceptedInfo env loc)).isEmpty then none
          else some (users.map (acceptedInfo env loc)))
        = (if users.isEmpty then none else some (users.map (acceptedInfo env loc))) := by
      cases users <;> rfl
    rw [hs]
    have hlast : postJsonLoopWith marshal env NewRecorder []
          (if users.isEmpty then none else some (users.map (acceptedInfo env loc)))
        = badRequest NewRecorder diag := by
      simp only [postJsonLoopWith, hme]
    rw [hlast, badRequest_NewRecorder]
    exact ⟨rfl, rfl⟩

/-- Witness of the amended C12: a valid record sent to a server without time-zone database. -/
theorem environment_failure_answers_400_witness :
    (postJson (envNoZone [jane]) NewRecorder (postOf [jane])).Code = 400
      ∧ (postJson (envNoZone [jane]) NewRecorder (postOf [jane])).Body
        = "400 Bad Request\n" ++ "unknown time zone EST" :=
  (environment_failure_answers_400 (envNoZone [jane]) (postOf [jane]) (usersJson [jane])
    rfl rfl).1 jane [] "unknown time zone EST" rfl (by decide) (by decide)
    ⟨(1990, 8, 6), by decide⟩ (by decide) (by decide) rfl

/-! ## Claims about `src/httpserver/main.go` -/

/-- The handler of `src/httpserver/main.go` returns, with status 200 and the PNG bytes, only
when the body read, the JPEG decoder and the PNG encoder all succeed. -/
theorem httpserver_returns_iff (env : Env) (request : Request) (w : ResponseWriter) :
    httpserver.postJpegToPng env NewRecorder request = .returned w ↔
      ∃ body img png, request.Body = .ok body ∧ env.jpegDecode body = .ok img
        ∧ env.pngEncode (env.Resize img (httpserver.targetDimensions img.Dx img.Dy).1
            (httpserver.targetDimensions img.Dx img.Dy).2) = .ok png
        ∧ w = { Code := 200, wroteHeader := true, HeaderMap := [("Content-Type", "image/png")],
                sentHeader := [("Content-Type", "image/png")], Body := png } := by
  constructor
  · intro h
    cases hb : request.Body with
    | error e => simp [httpserver.postJpegToPng, hb] at h
    | ok body =>
      cases hd : env.jpegDecode body with
      | error e => simp [httpserver.postJpegToPng, hb, hd] at h
      | ok img =>
        cases hp : env.pngEncode (env.Resize img (httpserver.targetDimensions img.Dx img.Dy).1
            (httpserver.targetDimensions img.Dx img.Dy).2) with
        | error e => simp [httpserver.postJpegToPng, hb, hd, hp] at h
        | ok png =>
          simp only [httpserver.postJpegToPng, hb, hd, hp, write_NewRecorder,
            Outcome.returned.injEq] at h
          exact ⟨body, img, png, rfl, hd, hp, h.symm⟩
  · rintro ⟨body, img, png, hb, hd, hp, hw⟩
    simp only [httpserver.postJpegToPng, hb, hd, hp, write_NewRecorder, hw]

/-- Claim C11, evaluated on the failing paths. In `src/httpserver/main.go` the handler
`postJpegToPng` does not return on a failure: when the body cannot be read the process
exits with status 6, when the JPEG decoder rejects the body it exits with status 7, and
when the PNG encoder fails it exits with status 8; in none of these cases is a response
written. -/
theorem httpserver_exits_on_failure (env : Env) (request : Request) :
    (∀ err, request.Body = .error err →
        httpserver.postJpegToPng env NewRecorder request = .exited 6)
      ∧ (∀ body diag, request.Body = .ok body → env.jpegDecode body = .error diag →
        httpserver.postJpegToPng env NewRecorder request = .exited 7)
      ∧ (∀ body img diag, request.Body = .ok body → env.jpegDecode body = .ok img →
        env.pngEncode (env.Resize img (httpserver.targetDimensions img.Dx img.Dy).1
          (httpserver.targetDimensions img.Dx img.Dy).2) = .error diag →
        httpserver.postJpegToPng env NewRecorder request = .exited 8) := by
  refine ⟨?_, ?_, ?_⟩
  · intro err hb
    simp [httpserver.postJpegToPng, hb]
  · intro body diag hb hd
    simp [httpserver.postJpegToPng, hb, hd]
  · intro body img diag hb hd hp
    simp [httpserver.postJpegToPng, hb, hd, hp]

/-- Witness of C11's evaluation: a JSON text posted as an image ends the process with
status 7, where the handler of `src/main.go` answers 400 and returns. -/
theorem httpserver_exits_on_failure_witness :
    httpserver.postJpegToPng (envWith [joe]) NewRecorder (postOf [joe]) = .exited 7
      ∧ (postJpegToPng (envWith [joe]) NewRecorder (postOf [joe])).Code = 400
      ∧ httpserver.postJpegToPng (envImage 1920 1080) NewRecorder
          { Method := "POST", Body := .error "Body read error" } = .exited 6
      ∧ httpserver.postJpegToPng (envNoPng 1920 1080) NewRecorder jpegPost = .exited 8 :=
  ⟨(httpserver_exits_on_failure (envWith [joe]) (postOf [joe])).2.1 (usersJson [joe])
      "invalid JPEG format: missing SOI marker" rfl rfl,
    by decide, by decide, by decide⟩

/-! ## Claim about the dimensions passed to the resize step -/

/-- Claim C13. For a decoded image of width `w > 0` and height `h > 0` below `2 ^ 31`,
`postJpegToPng` of `src/main.go` passes to the resize step 256 on the longer axis (on both
axes when `w = h`) and `floor (256 * min w h / max w h)` on the shorter axis, the truncated
float64 product. Both targets are at most 256, and the target of the shorter axis is 0
exactly when `max w h > 256 * min w h`. -/
theorem resize_target_floor (env : Env) (request : Request) (body : String) (img : Image)
    (hm : request.Method = "POST") (hb : request.Body = .ok body)
    (hd : env.jpegDecode body = .ok img) (hw0 : 0 < img.Dx) (hh0 : 0 < img.Dy)
    (hw : img.Dx < 2 ^ 31) (hh : img.Dy < 2 ^ 31) :
    ∃ tw th : Nat,
      postJpegToPng env NewRecorder request
          = (match env.pngEncode (env.Resize img tw th) with
             | .error pngEncodeErr => badRequest NewRecorder pngEncodeErr
             | .ok pngBuffer => (NewRecorder.HeaderSet "Content-Type" "image/png").Write pngBuffer)
        ∧ (tw, th) = targetDimensions img.Dx img.Dy
        ∧ (img.Dy > img.Dx → tw = 256 * img.Dx / img.Dy ∧ th = 256)
        ∧ (img.Dx > img.Dy → tw = 256 ∧ th = 256 * img.Dy / img.Dx)
        ∧ (img.Dx = img.Dy → tw = 256 ∧ th = 256)
        ∧ (img.Dx ≠ img.Dy →
            min tw th = 256 * min img.Dx img.Dy / max img.Dx img.Dy ∧ max tw th = 256)
        ∧ tw ≤ 256 ∧ th ≤ 256
        ∧ (img.Dx ≠ img.Dy →
            (min tw th = 0 ↔ max img.Dx img.Dy > 256 * min img.Dx img.Dy)) := by
  have hw46 : img.Dx < 2 ^ 46 := lt_trans hw (by norm_num)
  have hh46 : img.Dy < 2 ^ 46 := lt_trans hh (by norm_num)
  have hrun : postJpegToPng env NewRecorder request
      = (match env.pngEncode (env.Resize img (targetDimensions img.Dx img.Dy).1
            (targetDimensions img.Dx img.Dy).2) with
         | .error pngEncodeErr => badRequest NewRecorder pngEncodeErr
         | .ok pngBuffer => (NewRecorder.HeaderSet "Content-Type" "image/png").Write pngBuffer) := by
    simp only [postJpegToPng, hm, hb, hd, ne_eq, not_true_eq_false, if_false]
  refine ⟨(targetDimensions img.Dx img.Dy).1, (targetDimensions img.Dx img.Dy).2, hrun, rfl, ?_⟩
  generalize img.Dx = w at *
  generalize img.Dy = h at *
  rcases Nat.lt_trichotomy w h with hlt | heq | hgt
  · have ht : targetDimensions w h = (256 * w / h, 256) := by
      unfold targetDimensions
      simp only [gt_iff_lt, hlt, if_true, scale_floor w h hlt hh46]
      rfl
    have hle : 256 * w / h < 256 := Nat.div_lt_of_lt_mul (by omega)
    rw [ht]
    refine ⟨fun _ => ⟨rfl, rfl⟩, fun h2 => by omega, fun h2 => by omega, fun _ => ?_, by omega,
      le_refl _, fun _ => ?_⟩
    · simp only
      rw [Nat.min_eq_left (le_of_lt hle), Nat.max_eq_right (le_of_lt hle),
        Nat.min_eq_left (le_of_lt hlt), Nat.max_eq_right (le_of_lt hlt)]
      exact ⟨rfl, rfl⟩
    · simp only
      rw [Nat.min_eq_left (le_of_lt hle), Nat.min_eq_left (le_of_lt hlt),
        Nat.max_eq_right (le_of_lt hlt), Nat.div_eq_zero_iff (by omega)]
  · subst heq
    have ht : targetDimensions w w = (256, 256) := by
      unfold targetDimensions
      simp only [gt_iff_lt, lt_irrefl, if_false]
      rfl
    rw [ht]
    exact ⟨fun h2 => by omega, fun h2 => by omega, fun _ => ⟨rfl, rfl⟩,
      fun h2 => absurd rfl h2, le_refl _, le_refl _, fun h2 => absurd rfl h2⟩
  · have ht : targetDimensions w h = (256, 256 * h / w) := by
      unfold targetDimensions
      simp only [gt_iff_lt, hgt, not_lt_of_gt hgt, if_true, if_false, scale_floor h w hgt hw46]
      rfl
    have hle : 256 * h / w < 256 := Nat.div_lt_of_lt_mul (by omega)
    rw [ht]
    refine ⟨fun h2 => by omega, fun _ => ⟨rfl, rfl⟩, fun h2 => by omega, fun _ => ?_, le_refl _,
      by omega, fun _ => ?_⟩
    · simp only
      rw [Nat.min_eq_right (le_of_lt hle), Nat.max_eq_left (le_of_lt hle),
        Nat.min_eq_right (le_of_lt hgt), Nat.max_eq_left (le_of_lt hgt)]
      exact ⟨rfl, rfl⟩
    · simp only
      rw [Nat.min_eq_right (le_of_lt hle), Nat.min_eq_right (le_of_lt hgt),
        Nat.max_eq_left (le_of_lt hgt), Nat.div_eq_zero_iff (by omega)]

/-- Witness of C13: a 1920 by 1080 image is resized to 256 by 144, and a 1 by 300 image to
0 by 256. -/
theorem resize_target_floor_witness :
    (∃ tw th : Nat, (tw, th) = (256, 144)
        ∧ (tw, th) = targetDimensions 1920 1080 ∧ tw ≤ 256 ∧ th ≤ 256)
      ∧ (∃ tw th : Nat, (tw, th) = (0, 256) ∧ (tw, th) = targetDimensions 1 300) := by
  constructor
  · obtain ⟨tw, th, -, h2, -, h4, -, -, h7, h8, -⟩ :=
      resize_target_floor (envImage 1920 1080) jpegPost "JFIF"
        { Dx := 1920, Dy := 1080, Pix := [] } rfl rfl rfl (by decide) (by decide)
        (by norm_num) (by norm_num)
    obtain ⟨e1, e2⟩ := h4 (by decide)
    exact ⟨tw, th, by rw [e1, e2]; rfl, h2, h7, h8⟩
  · obtain ⟨tw, th, -, h2, h3, -⟩ :=
      resize_target_floor (envImage 1 300) jpegPost "JFIF"
        { Dx := 1, Dy := 300, Pix := [] } rfl rfl rfl (by decide) (by decide)
        (by norm_num) (by norm_num)
    obtain ⟨e1, e2⟩ := h3 (by decide)
    exact ⟨tw, th, by rw [e1, e2]; rfl, h2⟩

end ConnectRN
